import Mathlib

/-!
Shallow embedding of the KingCrab chess engine core (src/src/engine/...) and
proofs about it.  Rust `u64` bitboards are embedded as `Nat` (only `^^^`, `|||`
and `&&&` are applied to them, none of which overflows); `Piece::None` is
embedded as `Option.none`, so the source type `Piece` becomes
`Option PieceKind`; fixed-size arrays indexed by squares become functions out
of `Fin 64`; the history array plus its count becomes a list whose head is the
newest entry (the source's `list[count-1]`).
-/

namespace KingCrab

/-- `Side` of `definitions.rs` (White = 0, Black = 1). -/
inductive Side where
  | White
  | Black
deriving DecidableEq, Repr

/-- The six real members of `Piece` in `definitions.rs`.  The source's
`Piece::None` sentinel is embedded as `Option.none` wherever it can occur. -/
inductive PieceKind where
  | King
  | Queen
  | Rook
  | Bishop
  | Knight
  | Pawn
deriving DecidableEq, Repr, Fintype

/-- Square indices 0..63, `sq = rank*8 + file` as in `definitions.rs`. -/
abbrev SquareIx := Fin 64

/-- `(side as usize) ^ 1` of `Board::get_opponent`. -/
def Side.other : Side → Side
  | Side.White => Side.Black
  | Side.Black => Side.White

/-- `SQUARE_BITBOARDS[sq] = 1u64 << sq` of `definitions.rs`. -/
def squareBB (sq : SquareIx) : Nat := 1 <<< sq.val

/-! The bit constants of `ChessMoveFlags` in `chess_move.rs`. -/
namespace ChessMoveFlags

def QUIET : Nat := 1
def CAPTURE : Nat := 2
def DOUBLE_PAWN_PUSH : Nat := 4
def KING_CASTLE : Nat := 8
def QUEEN_CASTLE : Nat := 16
def EN_PASSANT : Nat := 32
def PROMOTION : Nat := 64

end ChessMoveFlags

/-- `ChessMove` of `chess_move.rs`.  `from`/`to` are renamed `fromSq`/`toSq`
(`from` is a Lean keyword). -/
structure ChessMove where
  piece : PieceKind
  fromSq : SquareIx
  toSq : SquareIx
  promotion : Option PieceKind
  is_check : Bool
  is_checkmate : Bool
  flags : Nat
deriving DecidableEq, Repr

namespace ChessMove

/-- `ChessMove::quiet`. -/
def quiet (piece : PieceKind) (fromSq toSq : SquareIx) : ChessMove :=
  ⟨piece, fromSq, toSq, none, false, false, ChessMoveFlags.QUIET⟩

/-- `ChessMove::capture`. -/
def capture (piece : PieceKind) (fromSq toSq : SquareIx) : ChessMove :=
  ⟨piece, fromSq, toSq, none, false, false, ChessMoveFlags.CAPTURE⟩

/-- `ChessMove::double_pawn_push`. -/
def double_pawn_push (fromSq toSq : SquareIx) : ChessMove :=
  ⟨PieceKind.Pawn, fromSq, toSq, none, false, false, ChessMoveFlags.DOUBLE_PAWN_PUSH⟩

/-- `ChessMove::castle`. -/
def castle (fromSq toSq : SquareIx) (king_side : Bool) : ChessMove :=
  ⟨PieceKind.King, fromSq, toSq, none, false, false,
    if king_side then ChessMoveFlags.KING_CASTLE else ChessMoveFlags.QUEEN_CASTLE⟩

/-- `ChessMove::en_passant`. -/
def en_passant (fromSq toSq : SquareIx) : ChessMove :=
  ⟨PieceKind.Pawn, fromSq, toSq, none, false, false,
    ChessMoveFlags.EN_PASSANT ||| ChessMoveFlags.CAPTURE⟩

/-- `ChessMove::promotion`. -/
def promotionMove (fromSq toSq : SquareIx) (promotion : PieceKind)
    (is_capture : Bool) : ChessMove :=
  ⟨PieceKind.Pawn, fromSq, toSq, some promotion, false, false,
    if is_capture then ChessMoveFlags.PROMOTION ||| ChessMoveFlags.CAPTURE
    else ChessMoveFlags.PROMOTION⟩

/-- `flags.contains(QUIET)` (bitflags `contains` = all mask bits present). -/
def is_quiet (m : ChessMove) : Bool := m.flags &&& ChessMoveFlags.QUIET == ChessMoveFlags.QUIET

def is_capture (m : ChessMove) : Bool := m.flags &&& ChessMoveFlags.CAPTURE == ChessMoveFlags.CAPTURE

def is_double_pawn_push (m : ChessMove) : Bool :=
  m.flags &&& ChessMoveFlags.DOUBLE_PAWN_PUSH == ChessMoveFlags.DOUBLE_PAWN_PUSH

def is_king_castling (m : ChessMove) : Bool :=
  m.flags &&& ChessMoveFlags.KING_CASTLE == ChessMoveFlags.KING_CASTLE

def is_queen_castling (m : ChessMove) : Bool :=
  m.flags &&& ChessMoveFlags.QUEEN_CASTLE == ChessMoveFlags.QUEEN_CASTLE

def is_en_passant (m : ChessMove) : Bool :=
  m.flags &&& ChessMoveFlags.EN_PASSANT == ChessMoveFlags.EN_PASSANT

def is_promotion (m : ChessMove) : Bool :=
  m.flags &&& ChessMoveFlags.PROMOTION == ChessMoveFlags.PROMOTION

end ChessMove

/-- `GameState` of `game_state.rs`.  `castling` is the `u8` rights mask,
`en_passant` the optional `u8` square index, `zobrist_key` the `u64` key. -/
structure GameState where
  active_side : Side
  castling : Nat
  half_move_clock : Nat
  en_passant : Option Nat
  full_move_number : Nat
  zobrist_key : Nat
deriving DecidableEq, Repr

/-- `GameState::new` (also the state produced by `GameState::clear`). -/
def GameState.new : GameState :=
  ⟨Side.White, 0, 0, none, 0, 0⟩

/-- `ZobristKeys` of `zobrist.rs`, modelled by its accessors.  The concrete
tables are drawn from a seeded ChaCha RNG; their values are opaque here, so
the structure carries the four accessor functions `piece`, `castling`, `side`
and `en_passant` directly (`en_passant none` stands for the extra
`en_passant_keys[64]` "no en-passant" slot). -/
structure ZobristKeys where
  piece : Side → PieceKind → SquareIx → Nat
  castling : Nat → Nat
  side : Side → Nat
  en_passant : Option Nat → Nat

/-- `RecordedMove` of `game_history.rs`. -/
structure RecordedMove where
  mv : ChessMove
  prev_state : GameState
  captured_piece : Option (PieceKind × Side × SquareIx)
deriving DecidableEq, Repr

/-- `Board` of `board.rs`.  `game_history` is the history stack, head =
newest entry; the source's preallocated `[RecordedMove; 1024]` plus `count`
is abstracted to the list of its first `count` entries. -/
@[ext]
structure Board where
  sides : Side → Nat
  pieces : Side → PieceKind → Nat
  piece_list : SquareIx → Option PieceKind
  game_state : GameState
  game_history : List RecordedMove
  zobrist_keys : ZobristKeys

namespace Board

/-- `Board::get_active_side`. -/
def get_active_side (b : Board) : Side := b.game_state.active_side

/-- `Board::get_opponent`. -/
def get_opponent (b : Board) : Side := b.get_active_side.other

/-- `Board::reset` (on top of any starting board; `game_state.clear()` and
`game_history.clear()` produce the empty state and the empty stack). -/
def reset (b : Board) : Board :=
  { sides := fun _ => 0
    pieces := fun _ _ => 0
    piece_list := fun _ => none
    game_state := GameState.new
    game_history := []
    zobrist_keys := b.zobrist_keys }

/-- `Board::remove_piece`: XOR the square bit out of the piece and side
bitboards, clear the piece list slot, XOR the piece key out of the zobrist. -/
def remove_piece (b : Board) (side : Side) (piece : PieceKind) (square : SquareIx) : Board :=
  { b with
    pieces := Function.update b.pieces side
      (Function.update (b.pieces side) piece (b.pieces side piece ^^^ squareBB square))
    sides := Function.update b.sides side (b.sides side ^^^ squareBB square)
    piece_list := Function.update b.piece_list square none
    game_state := { b.game_state with
      zobrist_key := b.game_state.zobrist_key ^^^ b.zobrist_keys.piece side piece square } }

/-- `Board::place_piece`: OR the square bit into the piece and side
bitboards, set the piece list slot, XOR the piece key into the zobrist. -/
def place_piece (b : Board) (side : Side) (piece : PieceKind) (square : SquareIx) : Board :=
  { b with
    pieces := Function.update b.pieces side
      (Function.update (b.pieces side) piece (b.pieces side piece ||| squareBB square))
    sides := Function.update b.sides side (b.sides side ||| squareBB square)
    piece_list := Function.update b.piece_list square (some piece)
    game_state := { b.game_state with
      zobrist_key := b.game_state.zobrist_key ^^^ b.zobrist_keys.piece side piece square } }

/-- `Board::move_piece` = remove at `fromSq`, place at `toSq`. -/
def move_piece (b : Board) (side : Side) (piece : PieceKind) (fromSq toSq : SquareIx) : Board :=
  (b.remove_piece side piece fromSq).place_piece side piece toSq

/-- `Board::set_ep_square`: XOR the old en-passant key out, set the square,
XOR the new key in. -/
def set_ep_square (b : Board) (square : SquareIx) : Board :=
  { b with game_state := { b.game_state with
      en_passant := some square.val
      zobrist_key := b.game_state.zobrist_key
        ^^^ b.zobrist_keys.en_passant b.game_state.en_passant
        ^^^ b.zobrist_keys.en_passant (some square.val) } }

/-- `Board::clear_ep_square`. -/
def clear_ep_square (b : Board) : Board :=
  { b with game_state := { b.game_state with
      en_passant := none
      zobrist_key := b.game_state.zobrist_key
        ^^^ b.zobrist_keys.en_passant b.game_state.en_passant
        ^^^ b.zobrist_keys.en_passant none } }

/-- `Board::switch_active_side`. -/
def switch_active_side (b : Board) : Board :=
  { b with game_state := { b.game_state with
      active_side := b.get_opponent
      zobrist_key := b.game_state.zobrist_key
        ^^^ b.zobrist_keys.side b.game_state.active_side
        ^^^ b.zobrist_keys.side b.get_opponent } }

/-- `Board::set_castling_rights`. -/
def set_castling_rights (b : Board) (new_rights : Nat) : Board :=
  { b with game_state := { b.game_state with
      castling := new_rights
      zobrist_key := b.game_state.zobrist_key
        ^^^ b.zobrist_keys.castling b.game_state.castling
        ^^^ b.zobrist_keys.castling new_rights } }

/-- `Board::clear_castling_rights_for_square`.  Rights bits (`Castling` in
`definitions.rs`): WhiteKing = 1, WhiteQueen = 2, BlackKing = 4,
BlackQueen = 8; `!mask` on `u8` is `255 ^^^ mask`. -/
def clear_castling_rights_for_square (b : Board) (rook_square : SquareIx) : Board :=
  let c := b.game_state.castling
  let new_rights :=
    if rook_square.val = 0 then c &&& (255 ^^^ 2)        -- A1 → clear WhiteQueen
    else if rook_square.val = 7 then c &&& (255 ^^^ 1)   -- H1 → clear WhiteKing
    else if rook_square.val = 56 then c &&& (255 ^^^ 8)  -- A8 → clear BlackQueen
    else if rook_square.val = 63 then c &&& (255 ^^^ 4)  -- H8 → clear BlackKing
    else c
  b.set_castling_rights new_rights

/-- `Board::clear_castling_rights_for_side`. -/
def clear_castling_rights_for_side (b : Board) (side : Side) : Board :=
  let c := b.game_state.castling
  let new_rights :=
    match side with
    | Side.White => c &&& (255 ^^^ 1) &&& (255 ^^^ 2)
    | Side.Black => c &&& (255 ^^^ 4) &&& (255 ^^^ 8)
  b.set_castling_rights new_rights

end Board

/-- The `match chess_move.to` table shared by the castling arms of
`Board::make_move` and `Board::undo_move`: destination square ↦
`(rook_pos, rook_dest)`.  Any other destination is `unreachable!` in the
source (a panic), embedded as `none`. -/
def castleRookSquares : SquareIx → Option (SquareIx × SquareIx)
  | ⟨6, _⟩ => some (⟨7, by omega⟩, ⟨5, by omega⟩)    -- G1 → (H1, F1)
  | ⟨2, _⟩ => some (⟨0, by omega⟩, ⟨3, by omega⟩)    -- C1 → (A1, D1)
  | ⟨62, _⟩ => some (⟨63, by omega⟩, ⟨61, by omega⟩) -- G8 → (H8, F8)
  | ⟨58, _⟩ => some (⟨56, by omega⟩, ⟨59, by omega⟩) -- C8 → (A8, D8)
  | _ => none

namespace Board

/-- The `to ∓ 8` square arithmetic shared by the en-passant arms of
`Board::make_move` (`ep_square - 8` / `ep_square + 8` and the recorded
captured square).  In the source the subtraction underflowing `usize` or the
result leaving 0..63 panics (array index / `Square::try_from(..).unwrap()`);
both are embedded as `none`. -/
def epVictimSquare (s : Side) (ep : Nat) : Option SquareIx :=
  match s with
  | Side.White => if h : 8 ≤ ep ∧ ep - 8 < 64 then some ⟨ep - 8, h.2⟩ else none
  | Side.Black => if h : ep + 8 < 64 then some ⟨ep + 8, h⟩ else none

lemma epVictimSquare_white (ep : Nat) (h8 : 8 ≤ ep) (hlt : ep - 8 < 64) :
    epVictimSquare Side.White ep = some ⟨ep - 8, hlt⟩ := by
  simp [epVictimSquare, h8, hlt]

lemma epVictimSquare_black (ep : Nat) (hlt : ep + 8 < 64) :
    epVictimSquare Side.Black ep = some ⟨ep + 8, hlt⟩ := by
  simp [epVictimSquare, hlt]

/-- The half-move-clock / castling-rights prefix of the quiet arm of
`Board::make_move`: if the moved piece is not a pawn, bump the clock and
clear the side's (king move) or the square's (rook move) castling rights;
for a pawn, zero the clock.  Only `game_state` is touched. -/
def quiet_clock_castling (b : Board) (m : ChessMove) : Board :=
  let piece := b.piece_list m.fromSq
  if piece ≠ some PieceKind.Pawn then
    let ba := { b with game_state := { b.game_state with
      half_move_clock := b.game_state.half_move_clock + 1 } }
    match piece with
    | some PieceKind.King => ba.clear_castling_rights_for_side ba.get_active_side
    | some PieceKind.Rook => ba.clear_castling_rights_for_square m.fromSq
    | _ => ba
  else
    { b with game_state := { b.game_state with half_move_clock := 0 } }

/-- The "captured rook loses its castling right" step of the capture arm of
`Board::make_move`.  Only `game_state` is touched. -/
def capture_rook_rights (b : Board) (q : PieceKind) (toSq : SquareIx) : Board :=
  if q = PieceKind.Rook then b.clear_castling_rights_for_square toSq else b

/-- The flavor-dispatch block of `Board::make_move` (everything before the
full-move-number bump): returns the mutated board and the branch's
`captured_piece` local (`Piece::None` ↦ `none`).  Source points where the
Rust program would panic (indexing `pieces` with `Piece::None`, square
arithmetic leaving 0..63, `unwrap` on a missing en-passant square or
promotion piece, `unreachable!` on a bad castling destination) are embedded
as leaving the board unchanged; all of them are outside `MoveOk`. -/
def make_move_dispatch (b : Board) (m : ChessMove) : Board × Option PieceKind :=
  if m.is_quiet then
    let b1 := b.quiet_clock_castling m
    let b2 :=
      match b1.piece_list m.fromSq with
      | some p => b1.move_piece b1.get_active_side p m.fromSq m.toSq
      | none => b1
    (b2.clear_ep_square, none)
  else if m.is_double_pawn_push then
    let b1 :=
      match b.piece_list m.fromSq with
      | some p => b.move_piece b.get_active_side p m.fromSq m.toSq
      | none => b
    let b2 :=
      match b1.get_active_side with
      | Side.White =>
          if h : 8 ≤ m.toSq.val then b1.set_ep_square ⟨m.toSq.val - 8, by omega⟩ else b1
      | Side.Black =>
          if h : m.toSq.val + 8 < 64 then b1.set_ep_square ⟨m.toSq.val + 8, h⟩ else b1
    ({ b2 with game_state := { b2.game_state with half_move_clock := 0 } }, none)
  else if m.is_king_castling || m.is_queen_castling then
    match castleRookSquares m.toSq with
    | some (rook_pos, rook_dest) =>
      let b1 :=
        match b.piece_list m.fromSq with
        | some p => b.move_piece b.get_active_side p m.fromSq m.toSq
        | none => b
      let b2 :=
        match b1.piece_list rook_pos with
        | some p => b1.move_piece b1.get_active_side p rook_pos rook_dest
        | none => b1
      let b3 := b2.clear_castling_rights_for_side b2.get_active_side
      let b4 := { b3 with game_state := { b3.game_state with
        half_move_clock := b3.game_state.half_move_clock + 1 } }
      (b4.clear_ep_square, none)
    | none => (b, none)
  else if m.is_capture then
    let step : Board × Option PieceKind :=
      if m.is_en_passant then
        match b.game_state.en_passant with
        | some ep =>
          match epVictimSquare b.get_active_side ep with
          | some pieceSquare =>
            match b.piece_list pieceSquare with
            | some q => (b.remove_piece b.get_opponent q pieceSquare, some q)
            | none => (b, none)
          | none => (b, none)
        | none => (b, none)
      else
        match b.piece_list m.toSq with
        | some q =>
          let b1 := b.remove_piece b.get_opponent q m.toSq
          (b1.capture_rook_rights q m.toSq, some q)
        | none => (b, none)
    let b2 := step.1
    let b3 :=
      if m.is_promotion then
        let ba :=
          match b2.piece_list m.fromSq with
          | some p => b2.remove_piece b2.get_active_side p m.fromSq
          | none => b2
        match m.promotion with
        | some pp => ba.place_piece ba.get_active_side pp m.toSq
        | none => ba
      else
        match b2.piece_list m.fromSq with
        | some p => b2.move_piece b2.get_active_side p m.fromSq m.toSq
        | none => b2
    let b4 := { b3 with game_state := { b3.game_state with half_move_clock := 0 } }
    (b4.clear_ep_square, step.2)
  else if m.is_promotion then
    let b1 :=
      match b.piece_list m.fromSq with
      | some p => b.remove_piece b.get_active_side p m.fromSq
      | none => b
    let b2 :=
      match m.promotion with
      | some pp => b1.place_piece b1.get_active_side pp m.toSq
      | none => b1
    let b3 := { b2 with game_state := { b2.game_state with half_move_clock := 0 } }
    (b3.clear_ep_square, none)
  else
    (b, none)

/-- The captured-piece record built at the end of `Board::make_move`
(`captured_square` is `to`, or `to ∓ 8` for en passant; an out-of-range
en-passant arithmetic would panic in the source, embedded as `none`). -/
def make_move_captured (b : Board) (m : ChessMove) (captured_piece : Option PieceKind) :
    Option (PieceKind × Side × SquareIx) :=
  match captured_piece with
  | none => none
  | some cp =>
    let captured_square : Option SquareIx :=
      if m.is_en_passant then epVictimSquare b.get_active_side m.toSq.val
      else some m.toSq
    match captured_square with
    | some cs => some (cp, b.get_opponent, cs)
    | none => none

/-- The "Black just moved, bump the full-move number" step of
`Board::make_move`.  Only `game_state` is touched. -/
def bump_full_move (b : Board) : Board :=
  if b.get_active_side = Side.Black then
    { b with game_state := { b.game_state with
      full_move_number := b.game_state.full_move_number + 1 } }
  else b

/-- `Board::make_move`. -/
def make_move (b : Board) (m : ChessMove) : Board :=
  let prev_state := b.game_state
  let step := b.make_move_dispatch m
  let bE := step.1.bump_full_move
  let captured := make_move_captured bE m step.2
  let bF := { bE with game_history := ⟨m, prev_state, captured⟩ :: bE.game_history }
  bF.switch_active_side

/-- `Board::undo_move`.  `GameHistory::pop` on an empty stack returns `None`
and the method returns with the board untouched. -/
def undo_move (b : Board) : Board :=
  match b.game_history with
  | [] => b
  | last_move :: rest =>
    let b0 := { b with game_history := rest }
    let prev_state := last_move.prev_state
    let prev_moved_piece := b0.piece_list last_move.mv.toSq
    let b1 :=
      if last_move.mv.is_promotion then
        let ba :=
          match prev_moved_piece with
          | some p => b0.remove_piece prev_state.active_side p last_move.mv.toSq
          | none => b0
        ba.place_piece prev_state.active_side PieceKind.Pawn last_move.mv.fromSq
      else
        match prev_moved_piece with
        | some p => b0.move_piece prev_state.active_side p last_move.mv.toSq last_move.mv.fromSq
        | none => b0
    let b2 :=
      if last_move.mv.is_queen_castling || last_move.mv.is_king_castling then
        match castleRookSquares last_move.mv.toSq with
        | some (rook_pos, rook_dest) =>
          match b1.piece_list rook_dest with
          | some pr => b1.move_piece prev_state.active_side pr rook_dest rook_pos
          | none => b1
        | none => b1
      else b1
    let b3 :=
      match last_move.captured_piece with
      | some (piece, side, square) => b2.place_piece side piece square
      | none => b2
    { b3 with game_state := prev_state }

/-- `HALF_MOVE_MAX` of `definitions.rs`. -/
def HALF_MOVE_MAX : Nat := 100

/-- `Board::draw_by_fifty_move_rule`. -/
def draw_by_fifty_move_rule (b : Board) : Bool :=
  HALF_MOVE_MAX ≤ b.game_state.half_move_clock

end Board

/-- The counting loop of `Board::draw_by_threefold_repetition`: walk the
history from the newest entry down, add 1 for each `prev_state` whose
zobrist key matches, and stop right after examining an entry whose
`half_move_clock` is 0. -/
def threefoldLoop (key : Nat) : List RecordedMove → Nat
  | [] => 0
  | rm :: rest =>
    let c := if rm.prev_state.zobrist_key = key then 1 else 0
    if rm.prev_state.half_move_clock = 0 then c else c + threefoldLoop key rest

/-- `Board::draw_by_threefold_repetition`. -/
def Board.draw_by_threefold_repetition (b : Board) : Bool :=
  3 ≤ threefoldLoop b.game_state.zobrist_key b.game_history

/-- The scanned prefix of the history as the claim describes it: the
snapshots examined by the backward scan, ending with (and including) the
first one whose half-move clock is 0.  Stated from the claim's words, to be
compared with the loop embedded from the source. -/
def scannedStates : List GameState → List GameState
  | [] => []
  | st :: rest => st :: (if st.half_move_clock = 0 then [] else scannedStates rest)

lemma threefoldLoop_eq_countP (key : Nat) (l : List RecordedMove) :
    threefoldLoop key l =
      (scannedStates (l.map (·.prev_state))).countP (fun st => st.zobrist_key == key) := by
  induction l with
  | nil => simp [threefoldLoop, scannedStates]
  | cons rm rest ih =>
    by_cases h0 : rm.prev_state.half_move_clock = 0 <;>
      by_cases hz : rm.prev_state.zobrist_key = key <;>
        simp [threefoldLoop, scannedStates, h0, hz, List.countP_cons, ih]
    all_goals omega

/-- C4: `draw_by_threefold_repetition` returns true iff, among the
`prev_state` snapshots examined by the backward scan (newest first, stopping
after the first snapshot whose half-move clock is 0 has been examined), at
least 3 have the board's current zobrist key; the current position itself is
not among the counted snapshots. -/
theorem draw_by_threefold_repetition_iff (b : Board) :
    b.draw_by_threefold_repetition = true ↔
      3 ≤ (scannedStates (b.game_history.map (·.prev_state))).countP
            (fun st => st.zobrist_key == b.game_state.zobrist_key) := by
  rw [Board.draw_by_threefold_repetition, threefoldLoop_eq_countP]
  exact decide_eq_true_iff

/-- C10: on a board whose history stack is empty, `undo_move` is a no-op:
`GameHistory::pop` yields nothing and the board is returned unchanged. -/
theorem undo_move_empty_noop (b : Board) (h : b.game_history = []) :
    b.undo_move = b := by
  unfold Board.undo_move
  rw [h]

/-- All-zero zobrist tables, a concrete `ZobristKeys` value for witnesses. -/
def zeroKeys : ZobristKeys := ⟨fun _ _ _ => 0, fun _ => 0, fun _ => 0, fun _ => 0⟩

/-- The empty board with empty history (the state after `Board::reset`). -/
def emptyBoard : Board :=
  { sides := fun _ => 0
    pieces := fun _ _ => 0
    piece_list := fun _ => none
    game_state := GameState.new
    game_history := []
    zobrist_keys := zeroKeys }

/-- Witness for C10: the empty board has empty history and `undo_move`
returns it unchanged. -/
theorem undo_move_empty_noop_witness :
    emptyBoard.game_history = [] ∧ emptyBoard.undo_move = emptyBoard :=
  ⟨rfl, undo_move_empty_noop emptyBoard rfl⟩

/-! ### Bit-level lemmas about square bitboards -/

lemma testBit_squareBB (sq : SquareIx) (i : Nat) :
    (squareBB sq).testBit i = decide (sq.val = i) := by
  rw [squareBB, Nat.one_shiftLeft]
  by_cases h : sq.val = i
  · subst h; simp [Nat.testBit_two_pow_self]
  · simp [Nat.testBit_two_pow_of_ne h, h]

/-- Removing (XOR) then re-adding (OR) a set bit restores the word. -/
lemma xor_or_cancel {x : Nat} {sq : SquareIx} (h : x.testBit sq.val = true) :
    (x ^^^ squareBB sq) ||| squareBB sq = x := by
  apply Nat.eq_of_testBit_eq
  intro i
  by_cases hi : sq.val = i
  · subst hi; simp [Nat.testBit_or, Nat.testBit_xor, testBit_squareBB, h]
  · simp [Nat.testBit_or, Nat.testBit_xor, testBit_squareBB, hi]

/-- Adding (OR) then removing (XOR) a clear bit restores the word. -/
lemma or_xor_cancel {x : Nat} {sq : SquareIx} (h : x.testBit sq.val = false) :
    (x ||| squareBB sq) ^^^ squareBB sq = x := by
  apply Nat.eq_of_testBit_eq
  intro i
  by_cases hi : sq.val = i
  · subst hi; simp [Nat.testBit_or, Nat.testBit_xor, testBit_squareBB, h]
  · simp [Nat.testBit_or, Nat.testBit_xor, testBit_squareBB, hi]

/-- The bit trace of `move_piece a → c` followed by `move_piece c → a`
(XOR out `a`, OR in `c`, XOR out `c`, OR in `a`) restores the word when bit
`a` was set and bit `c` clear. -/
lemma bits_move_undo {x : Nat} {a c : SquareIx} (hne : a ≠ c)
    (ha : x.testBit a.val = true) (hc : x.testBit c.val = false) :
    (((x ^^^ squareBB a) ||| squareBB c) ^^^ squareBB c) ||| squareBB a = x := by
  have hval : a.val ≠ c.val := fun h => hne (Fin.ext h)
  apply Nat.eq_of_testBit_eq
  intro i
  by_cases hia : a.val = i
  · subst hia
    simp [Nat.testBit_or, Nat.testBit_xor, testBit_squareBB, ha, hval]
  · by_cases hic : c.val = i
    · subst hic
      simp [Nat.testBit_or, Nat.testBit_xor, testBit_squareBB, hc, hia]
    · simp [Nat.testBit_or, Nat.testBit_xor, testBit_squareBB, hia, hic]

lemma testBit_xor_squareBB_ne {x : Nat} {sq : SquareIx} {i : Nat} (h : sq.val ≠ i) :
    (x ^^^ squareBB sq).testBit i = x.testBit i := by
  simp [Nat.testBit_xor, testBit_squareBB, h]

lemma testBit_or_squareBB_ne {x : Nat} {sq : SquareIx} {i : Nat} (h : sq.val ≠ i) :
    (x ||| squareBB sq).testBit i = x.testBit i := by
  simp [Nat.testBit_or, testBit_squareBB, h]

/-- Restoring a 64-entry piece-list after a `move_piece a → c` and back. -/
lemma pl_move_roundtrip (pl : SquareIx → Option PieceKind) (a c : SquareIx) (p : PieceKind)
    (hne : a ≠ c) (ha : pl a = some p) (hc : pl c = none) :
    Function.update (Function.update (Function.update pl a none) c none) a (some p) = pl := by
  funext x
  rcases eq_or_ne x a with rfl | hxa
  · simp [Function.update_apply, ha]
  · rcases eq_or_ne x c with rfl | hxc
    · simp [Function.update_apply, hxa, hc]
    · simp [Function.update_apply, hxa, hxc]

/-! ### Field-projection lemmas for the board primitives -/

@[simp] lemma remove_piece_sides (b : Board) (s : Side) (p : PieceKind) (sq : SquareIx) :
    (b.remove_piece s p sq).sides = Function.update b.sides s (b.sides s ^^^ squareBB sq) := rfl

@[simp] lemma remove_piece_pieces (b : Board) (s : Side) (p : PieceKind) (sq : SquareIx) :
    (b.remove_piece s p sq).pieces =
      Function.update b.pieces s
        (Function.update (b.pieces s) p (b.pieces s p ^^^ squareBB sq)) := rfl

@[simp] lemma remove_piece_piece_list (b : Board) (s : Side) (p : PieceKind) (sq : SquareIx) :
    (b.remove_piece s p sq).piece_list = Function.update b.piece_list sq none := rfl

@[simp] lemma remove_piece_active (b : Board) (s : Side) (p : PieceKind) (sq : SquareIx) :
    (b.remove_piece s p sq).game_state.active_side = b.game_state.active_side := rfl

@[simp] lemma remove_piece_history (b : Board) (s : Side) (p : PieceKind) (sq : SquareIx) :
    (b.remove_piece s p sq).game_history = b.game_history := rfl

@[simp] lemma remove_piece_keys (b : Board) (s : Side) (p : PieceKind) (sq : SquareIx) :
    (b.remove_piece s p sq).zobrist_keys = b.zobrist_keys := rfl

@[simp] lemma place_piece_sides (b : Board) (s : Side) (p : PieceKind) (sq : SquareIx) :
    (b.place_piece s p sq).sides = Function.update b.sides s (b.sides s ||| squareBB sq) := rfl

@[simp] lemma place_piece_pieces (b : Board) (s : Side) (p : PieceKind) (sq : SquareIx) :
    (b.place_piece s p sq).pieces =
      Function.update b.pieces s
        (Function.update (b.pieces s) p (b.pieces s p ||| squareBB sq)) := rfl

@[simp] lemma place_piece_piece_list (b : Board) (s : Side) (p : PieceKind) (sq : SquareIx) :
    (b.place_piece s p sq).piece_list = Function.update b.piece_list sq (some p) := rfl

@[simp] lemma place_piece_active (b : Board) (s : Side) (p : PieceKind) (sq : SquareIx) :
    (b.place_piece s p sq).game_state.active_side = b.game_state.active_side := rfl

@[simp] lemma place_piece_history (b : Board) (s : Side) (p : PieceKind) (sq : SquareIx) :
    (b.place_piece s p sq).game_history = b.game_history := rfl

@[simp] lemma place_piece_keys (b : Board) (s : Side) (p : PieceKind) (sq : SquareIx) :
    (b.place_piece s p sq).zobrist_keys = b.zobrist_keys := rfl

@[simp] lemma set_castling_rights_sides (b : Board) (r : Nat) :
    (b.set_castling_rights r).sides = b.sides := rfl

@[simp] lemma set_castling_rights_pieces (b : Board) (r : Nat) :
    (b.set_castling_rights r).pieces = b.pieces := rfl

@[simp] lemma set_castling_rights_piece_list (b : Board) (r : Nat) :
    (b.set_castling_rights r).piece_list = b.piece_list := rfl

@[simp] lemma set_castling_rights_active (b : Board) (r : Nat) :
    (b.set_castling_rights r).game_state.active_side = b.game_state.active_side := rfl

@[simp] lemma set_castling_rights_history (b : Board) (r : Nat) :
    (b.set_castling_rights r).game_history = b.game_history := rfl

@[simp] lemma set_castling_rights_keys (b : Board) (r : Nat) :
    (b.set_castling_rights r).zobrist_keys = b.zobrist_keys := rfl

@[simp] lemma clear_rights_side_sides (b : Board) (s : Side) :
    (b.clear_castling_rights_for_side s).sides = b.sides := rfl

@[simp] lemma clear_rights_side_pieces (b : Board) (s : Side) :
    (b.clear_castling_rights_for_side s).pieces = b.pieces := rfl

@[simp] lemma clear_rights_side_piece_list (b : Board) (s : Side) :
    (b.clear_castling_rights_for_side s).piece_list = b.piece_list := rfl

@[simp] lemma clear_rights_side_active (b : Board) (s : Side) :
    (b.clear_castling_rights_for_side s).game_state.active_side =
      b.game_state.active_side := rfl

@[simp] lemma clear_rights_side_history (b : Board) (s : Side) :
    (b.clear_castling_rights_for_side s).game_history = b.game_history := rfl

@[simp] lemma clear_rights_side_keys (b : Board) (s : Side) :
    (b.clear_castling_rights_for_side s).zobrist_keys = b.zobrist_keys := rfl

@[simp] lemma clear_rights_square_sides (b : Board) (sq : SquareIx) :
    (b.clear_castling_rights_for_square sq).sides = b.sides := rfl

@[simp] lemma clear_rights_square_pieces (b : Board) (sq : SquareIx) :
    (b.clear_castling_rights_for_square sq).pieces = b.pieces := rfl

@[simp] lemma clear_rights_square_piece_list (b : Board) (sq : SquareIx) :
    (b.clear_castling_rights_for_square sq).piece_list = b.piece_list := rfl

@[simp] lemma clear_rights_square_active (b : Board) (sq : SquareIx) :
    (b.clear_castling_rights_for_square sq).game_state.active_side =
      b.game_state.active_side := rfl

@[simp] lemma clear_rights_square_history (b : Board) (sq : SquareIx) :
    (b.clear_castling_rights_for_square sq).game_history = b.game_history := rfl

@[simp] lemma clear_rights_square_keys (b : Board) (sq : SquareIx) :
    (b.clear_castling_rights_for_square sq).zobrist_keys = b.zobrist_keys := rfl

@[simp] lemma quiet_clock_castling_sides (b : Board) (m : ChessMove) :
    (b.quiet_clock_castling m).sides = b.sides := by
  unfold Board.quiet_clock_castling
  dsimp only
  split
  · split <;> rfl
  · rfl

@[simp] lemma quiet_clock_castling_pieces (b : Board) (m : ChessMove) :
    (b.quiet_clock_castling m).pieces = b.pieces := by
  unfold Board.quiet_clock_castling
  dsimp only
  split
  · split <;> rfl
  · rfl

@[simp] lemma quiet_clock_castling_piece_list (b : Board) (m : ChessMove) :
    (b.quiet_clock_castling m).piece_list = b.piece_list := by
  unfold Board.quiet_clock_castling
  dsimp only
  split
  · split <;> rfl
  · rfl

@[simp] lemma quiet_clock_castling_active (b : Board) (m : ChessMove) :
    (b.quiet_clock_castling m).game_state.active_side = b.game_state.active_side := by
  unfold Board.quiet_clock_castling
  dsimp only
  split
  · split <;> rfl
  · rfl

@[simp] lemma quiet_clock_castling_history (b : Board) (m : ChessMove) :
    (b.quiet_clock_castling m).game_history = b.game_history := by
  unfold Board.quiet_clock_castling
  dsimp only
  split
  · split <;> rfl
  · rfl

@[simp] lemma quiet_clock_castling_keys (b : Board) (m : ChessMove) :
    (b.quiet_clock_castling m).zobrist_keys = b.zobrist_keys := by
  unfold Board.quiet_clock_castling
  dsimp only
  split
  · split <;> rfl
  · rfl

@[simp] lemma capture_rook_rights_sides (b : Board) (q : PieceKind) (sq : SquareIx) :
    (b.capture_rook_rights q sq).sides = b.sides := by
  unfold Board.capture_rook_rights; split <;> rfl

@[simp] lemma capture_rook_rights_pieces (b : Board) (q : PieceKind) (sq : SquareIx) :
    (b.capture_rook_rights q sq).pieces = b.pieces := by
  unfold Board.capture_rook_rights; split <;> rfl

@[simp] lemma capture_rook_rights_piece_list (b : Board) (q : PieceKind) (sq : SquareIx) :
    (b.capture_rook_rights q sq).piece_list = b.piece_list := by
  unfold Board.capture_rook_rights; split <;> rfl

@[simp] lemma capture_rook_rights_active (b : Board) (q : PieceKind) (sq : SquareIx) :
    (b.capture_rook_rights q sq).game_state.active_side = b.game_state.active_side := by
  unfold Board.capture_rook_rights; split <;> rfl

@[simp] lemma capture_rook_rights_history (b : Board) (q : PieceKind) (sq : SquareIx) :
    (b.capture_rook_rights q sq).game_history = b.game_history := by
  unfold Board.capture_rook_rights; split <;> rfl

@[simp] lemma capture_rook_rights_keys (b : Board) (q : PieceKind) (sq : SquareIx) :
    (b.capture_rook_rights q sq).zobrist_keys = b.zobrist_keys := by
  unfold Board.capture_rook_rights; split <;> rfl

@[simp] lemma clear_ep_square_sides (b : Board) : b.clear_ep_square.sides = b.sides := rfl

@[simp] lemma clear_ep_square_pieces (b : Board) : b.clear_ep_square.pieces = b.pieces := rfl

@[simp] lemma clear_ep_square_piece_list (b : Board) :
    b.clear_ep_square.piece_list = b.piece_list := rfl

@[simp] lemma clear_ep_square_active (b : Board) :
    b.clear_ep_square.game_state.active_side = b.game_state.active_side := rfl

@[simp] lemma clear_ep_square_history (b : Board) :
    b.clear_ep_square.game_history = b.game_history := rfl

@[simp] lemma clear_ep_square_keys (b : Board) :
    b.clear_ep_square.zobrist_keys = b.zobrist_keys := rfl

@[simp] lemma set_ep_square_sides (b : Board) (sq : SquareIx) :
    (b.set_ep_square sq).sides = b.sides := rfl

@[simp] lemma set_ep_square_pieces (b : Board) (sq : SquareIx) :
    (b.set_ep_square sq).pieces = b.pieces := rfl

@[simp] lemma set_ep_square_piece_list (b : Board) (sq : SquareIx) :
    (b.set_ep_square sq).piece_list = b.piece_list := rfl

@[simp] lemma set_ep_square_active (b : Board) (sq : SquareIx) :
    (b.set_ep_square sq).game_state.active_side = b.game_state.active_side := rfl

@[simp] lemma set_ep_square_history (b : Board) (sq : SquareIx) :
    (b.set_ep_square sq).game_history = b.game_history := rfl

@[simp] lemma set_ep_square_keys (b : Board) (sq : SquareIx) :
    (b.set_ep_square sq).zobrist_keys = b.zobrist_keys := rfl

@[simp] lemma bump_full_move_sides (b : Board) : b.bump_full_move.sides = b.sides := by
  unfold Board.bump_full_move; split <;> rfl

@[simp] lemma bump_full_move_pieces (b : Board) : b.bump_full_move.pieces = b.pieces := by
  unfold Board.bump_full_move; split <;> rfl

@[simp] lemma bump_full_move_piece_list (b : Board) :
    b.bump_full_move.piece_list = b.piece_list := by
  unfold Board.bump_full_move; split <;> rfl

@[simp] lemma bump_full_move_active (b : Board) :
    b.bump_full_move.game_state.active_side = b.game_state.active_side := by
  unfold Board.bump_full_move; split <;> rfl

@[simp] lemma bump_full_move_history (b : Board) :
    b.bump_full_move.game_history = b.game_history := by
  unfold Board.bump_full_move; split <;> rfl

@[simp] lemma bump_full_move_keys (b : Board) :
    b.bump_full_move.zobrist_keys = b.zobrist_keys := by
  unfold Board.bump_full_move; split <;> rfl

@[simp] lemma switch_active_side_sides (b : Board) :
    b.switch_active_side.sides = b.sides := rfl

@[simp] lemma switch_active_side_pieces (b : Board) :
    b.switch_active_side.pieces = b.pieces := rfl

@[simp] lemma switch_active_side_piece_list (b : Board) :
    b.switch_active_side.piece_list = b.piece_list := rfl

@[simp] lemma switch_active_side_history (b : Board) :
    b.switch_active_side.game_history = b.game_history := rfl

@[simp] lemma switch_active_side_keys (b : Board) :
    b.switch_active_side.zobrist_keys = b.zobrist_keys := rfl

/-! ### Structural well-formedness of a move on a board

`MoveOk b m` collects, per move flavor, exactly the facts about `b` that hold
for every fully legal move produced by the generator on a consistent board:
the mover (and, for captures, the victim) is present in `piece_list` and in
the matching piece and side bitboards, target squares are empty in the fields
the move writes, the flag byte is one of the combinations the `ChessMove`
constructors build, and the square arithmetic of the branch stays in 0..63
(where the source would otherwise panic). -/

/-- Shape of a quiet move (also the board-part of a double pawn push). -/
def QuietShape (b : Board) (m : ChessMove) : Prop :=
  ∃ p, b.piece_list m.fromSq = some p ∧
    (b.pieces b.get_active_side p).testBit m.fromSq.val = true ∧
    (b.sides b.get_active_side).testBit m.fromSq.val = true ∧
    b.piece_list m.toSq = none ∧
    (b.pieces b.get_active_side p).testBit m.toSq.val = false ∧
    (b.sides b.get_active_side).testBit m.toSq.val = false ∧
    m.fromSq ≠ m.toSq

/-- Shape of a double pawn push: a quiet shape whose en-passant midpoint
`to ∓ 8` stays on the board. -/
def DppShape (b : Board) (m : ChessMove) : Prop :=
  QuietShape b m ∧
    (b.get_active_side = Side.White → 8 ≤ m.toSq.val) ∧
    (b.get_active_side = Side.Black → m.toSq.val + 8 < 64)

/-- Shape of a castling move: the king on `from`, the rook on its corner,
the king's and rook's destinations empty, all four squares distinct. -/
def CastleShape (b : Board) (m : ChessMove) : Prop :=
  ∃ rp rd, castleRookSquares m.toSq = some (rp, rd) ∧
    b.piece_list m.fromSq = some PieceKind.King ∧
    (b.pieces b.get_active_side PieceKind.King).testBit m.fromSq.val = true ∧
    (b.sides b.get_active_side).testBit m.fromSq.val = true ∧
    b.piece_list rp = some PieceKind.Rook ∧
    (b.pieces b.get_active_side PieceKind.Rook).testBit rp.val = true ∧
    (b.sides b.get_active_side).testBit rp.val = true ∧
    b.piece_list m.toSq = none ∧
    (b.pieces b.get_active_side PieceKind.King).testBit m.toSq.val = false ∧
    (b.sides b.get_active_side).testBit m.toSq.val = false ∧
    b.piece_list rd = none ∧
    (b.pieces b.get_active_side PieceKind.Rook).testBit rd.val = false ∧
    (b.sides b.get_active_side).testBit rd.val = false ∧
    m.fromSq ≠ m.toSq ∧ m.fromSq ≠ rp ∧ m.fromSq ≠ rd ∧
    m.toSq ≠ rp ∧ m.toSq ≠ rd ∧ rp ≠ rd

/-- Shape of a plain (non-en-passant, non-promotion) capture. -/
def CaptureShape (b : Board) (m : ChessMove) : Prop :=
  ∃ p q, b.piece_list m.fromSq = some p ∧ b.piece_list m.toSq = some q ∧
    (b.pieces b.get_active_side p).testBit m.fromSq.val = true ∧
    (b.sides b.get_active_side).testBit m.fromSq.val = true ∧
    (b.pieces b.get_opponent q).testBit m.toSq.val = true ∧
    (b.sides b.get_opponent).testBit m.toSq.val = true ∧
    (b.pieces b.get_active_side p).testBit m.toSq.val = false ∧
    (b.sides b.get_active_side).testBit m.toSq.val = false ∧
    m.fromSq ≠ m.toSq

/-- The quantifier-free body of `EpShape`. -/
def EpShapeCore (b : Board) (m : ChessMove) (p q : PieceKind) (c : SquareIx) : Prop :=
  b.game_state.en_passant = some m.toSq.val ∧
  ((b.get_active_side = Side.White ∧ 8 ≤ m.toSq.val ∧ c.val = m.toSq.val - 8) ∨
    (b.get_active_side = Side.Black ∧ m.toSq.val + 8 < 64 ∧ c.val = m.toSq.val + 8)) ∧
  b.piece_list m.fromSq = some p ∧
  (b.pieces b.get_active_side p).testBit m.fromSq.val = true ∧
  (b.sides b.get_active_side).testBit m.fromSq.val = true ∧
  b.piece_list c = some q ∧
  (b.pieces b.get_opponent q).testBit c.val = true ∧
  (b.sides b.get_opponent).testBit c.val = true ∧
  b.piece_list m.toSq = none ∧
  (b.pieces b.get_active_side p).testBit m.toSq.val = false ∧
  (b.sides b.get_active_side).testBit m.toSq.val = false ∧
  m.fromSq ≠ m.toSq ∧ c ≠ m.fromSq ∧ c ≠ m.toSq

instance (b : Board) (m : ChessMove) (p q : PieceKind) (c : SquareIx) :
    Decidable (EpShapeCore b m p q c) := by
  unfold EpShapeCore; infer_instance

/-- Shape of an en-passant capture: the recorded en-passant square is the
destination and the captured pawn sits on `to ∓ 8`. -/
def EpShape (b : Board) (m : ChessMove) : Prop :=
  ∃ (p q : PieceKind) (c : SquareIx), EpShapeCore b m p q c

/-- Shape of a capturing promotion. -/
def PromoCapShape (b : Board) (m : ChessMove) : Prop :=
  ∃ pp q, m.promotion = some pp ∧
    b.piece_list m.fromSq = some PieceKind.Pawn ∧
    (b.pieces b.get_active_side PieceKind.Pawn).testBit m.fromSq.val = true ∧
    (b.sides b.get_active_side).testBit m.fromSq.val = true ∧
    b.piece_list m.toSq = some q ∧
    (b.pieces b.get_opponent q).testBit m.toSq.val = true ∧
    (b.sides b.get_opponent).testBit m.toSq.val = true ∧
    (b.pieces b.get_active_side pp).testBit m.toSq.val = false ∧
    (b.sides b.get_active_side).testBit m.toSq.val = false ∧
    m.fromSq ≠ m.toSq

/-- Shape of a quiet promotion. -/
def PromoShape (b : Board) (m : ChessMove) : Prop :=
  ∃ pp, m.promotion = some pp ∧
    b.piece_list m.fromSq = some PieceKind.Pawn ∧
    (b.pieces b.get_active_side PieceKind.Pawn).testBit m.fromSq.val = true ∧
    (b.sides b.get_active_side).testBit m.fromSq.val = true ∧
    b.piece_list m.toSq = none ∧
    (b.pieces b.get_active_side pp).testBit m.toSq.val = false ∧
    (b.sides b.get_active_side).testBit m.toSq.val = false ∧
    m.fromSq ≠ m.toSq

/-- A move that is structurally sound on `b`: its flag byte is one of the
combinations built by the `ChessMove` constructors, and the board facts of
the matching shape hold.  Every fully legal move on a reachable, consistent
position satisfies this. -/
def MoveOk (b : Board) (m : ChessMove) : Prop :=
  (m.flags = ChessMoveFlags.QUIET ∧ QuietShape b m) ∨
  (m.flags = ChessMoveFlags.DOUBLE_PAWN_PUSH ∧ DppShape b m) ∨
  ((m.flags = ChessMoveFlags.KING_CASTLE ∨ m.flags = ChessMoveFlags.QUEEN_CASTLE) ∧
    CastleShape b m) ∨
  (m.flags = ChessMoveFlags.CAPTURE ∧ CaptureShape b m) ∨
  (m.flags = ChessMoveFlags.EN_PASSANT ||| ChessMoveFlags.CAPTURE ∧ EpShape b m) ∨
  (m.flags = ChessMoveFlags.PROMOTION ||| ChessMoveFlags.CAPTURE ∧ PromoCapShape b m) ∨
  (m.flags = ChessMoveFlags.PROMOTION ∧ PromoShape b m)

instance (b : Board) (m : ChessMove) : Decidable (QuietShape b m) := by
  unfold QuietShape; infer_instance

instance (b : Board) (m : ChessMove) : Decidable (DppShape b m) := by
  unfold DppShape; infer_instance

instance (b : Board) (m : ChessMove) : Decidable (CastleShape b m) := by
  unfold CastleShape; infer_instance

instance (b : Board) (m : ChessMove) : Decidable (CaptureShape b m) := by
  unfold CaptureShape; infer_instance

instance (b : Board) (m : ChessMove) : Decidable (EpShape b m) := by
  unfold EpShape; infer_instance

instance (b : Board) (m : ChessMove) : Decidable (PromoCapShape b m) := by
  unfold PromoCapShape; infer_instance

instance (b : Board) (m : ChessMove) : Decidable (PromoShape b m) := by
  unfold PromoShape; infer_instance

instance (b : Board) (m : ChessMove) : Decidable (MoveOk b m) := by
  unfold MoveOk; infer_instance

lemma undo_make_quiet (b : Board) (m : ChessMove)
    (hfl : m.flags = ChessMoveFlags.QUIET) (hsh : QuietShape b m) :
    (b.make_move m).undo_move = b := by
  obtain ⟨p, hpl, hbp, hbs, hplto, hbpto, hbsto, hne⟩ := hsh
  simp only [Board.get_active_side] at hbp hbs hbpto hbsto
  have hq : m.is_quiet = true := by
    simp [ChessMove.is_quiet, hfl, ChessMoveFlags.QUIET]
  have hpr : m.is_promotion = false := by
    simp [ChessMove.is_promotion, hfl, ChessMoveFlags.QUIET, ChessMoveFlags.PROMOTION]
  have hkc : m.is_king_castling = false := by
    simp [ChessMove.is_king_castling, hfl, ChessMoveFlags.QUIET, ChessMoveFlags.KING_CASTLE]
  have hqc : m.is_queen_castling = false := by
    simp [ChessMove.is_queen_castling, hfl, ChessMoveFlags.QUIET, ChessMoveFlags.QUEEN_CASTLE]
  simp only [Board.make_move, Board.make_move_dispatch, Board.make_move_captured,
    Board.move_piece, Board.undo_move, hq, hpr, hkc, hqc,
    quiet_clock_castling_piece_list, quiet_clock_castling_sides, quiet_clock_castling_pieces,
    quiet_clock_castling_active, quiet_clock_castling_history, quiet_clock_castling_keys,
    remove_piece_sides, remove_piece_pieces, remove_piece_piece_list, remove_piece_active,
    remove_piece_history, remove_piece_keys, place_piece_sides, place_piece_pieces,
    place_piece_piece_list, place_piece_active, place_piece_history, place_piece_keys,
    clear_ep_square_sides, clear_ep_square_pieces, clear_ep_square_piece_list,
    clear_ep_square_active, clear_ep_square_history, clear_ep_square_keys,
    bump_full_move_sides, bump_full_move_pieces, bump_full_move_piece_list,
    bump_full_move_active, bump_full_move_history, bump_full_move_keys,
    switch_active_side_sides, switch_active_side_pieces, switch_active_side_piece_list,
    switch_active_side_history, switch_active_side_keys,
    hpl, Board.get_active_side, Function.update_same, Function.update_idem,
    Bool.or_self, if_true, if_false, Bool.false_eq_true, ite_true, ite_false]
  refine Board.ext ?_ ?_ ?_ ?_ ?_ ?_
  · simp only [bits_move_undo hne hbs hbsto, Function.update_eq_self]
  · simp only [bits_move_undo hne hbp hbpto, Function.update_eq_self]
  · exact pl_move_roundtrip b.piece_list m.fromSq m.toSq p hne hpl hplto
  · rfl
  · rfl
  · rfl

lemma side_other_ne (s : Side) : s.other ≠ s := by
  cases s <;> simp [Side.other]

lemma side_ne_other (s : Side) : s ≠ s.other := by
  cases s <;> simp [Side.other]

/-- Restoring a function after a foreign-point write `a := v`, a same-point
rewrite `b := g b`, and the write-back `a := g a`. -/
lemma update3_restore {α : Type} {β : Type} [DecidableEq α] (g : α → β) (a c : α)
    (v : β) : Function.update (Function.update (Function.update g a v) c (g c)) a (g a) = g := by
  funext x
  rcases eq_or_ne x a with rfl | hxa
  · simp [Function.update_apply]
  · rcases eq_or_ne x c with rfl | hxc
    · simp [Function.update_apply, hxa]
    · simp [Function.update_apply, hxa, hxc]

lemma undo_make_dpp (b : Board) (m : ChessMove)
    (hfl : m.flags = ChessMoveFlags.DOUBLE_PAWN_PUSH) (hsh : DppShape b m) :
    (b.make_move m).undo_move = b := by
  obtain ⟨⟨p, hpl, hbp, hbs, hplto, hbpto, hbsto, hne⟩, hW, hB⟩ := hsh
  simp only [Board.get_active_side] at hbp hbs hbpto hbsto hW hB
  have hq : m.is_quiet = false := by
    simp [ChessMove.is_quiet, hfl, ChessMoveFlags.QUIET, ChessMoveFlags.DOUBLE_PAWN_PUSH]
  have hd : m.is_double_pawn_push = true := by
    simp [ChessMove.is_double_pawn_push, hfl, ChessMoveFlags.DOUBLE_PAWN_PUSH]
  have hpr : m.is_promotion = false := by
    simp [ChessMove.is_promotion, hfl, ChessMoveFlags.DOUBLE_PAWN_PUSH, ChessMoveFlags.PROMOTION]
  have hkc : m.is_king_castling = false := by
    simp [ChessMove.is_king_castling, hfl, ChessMoveFlags.DOUBLE_PAWN_PUSH,
      ChessMoveFlags.KING_CASTLE]
  have hqc : m.is_queen_castling = false := by
    simp [ChessMove.is_queen_castling, hfl, ChessMoveFlags.DOUBLE_PAWN_PUSH,
      ChessMoveFlags.QUEEN_CASTLE]
  cases hside : b.game_state.active_side with
  | White =>
    have h8 : 8 ≤ m.toSq.val := hW hside
    rw [hside] at hbp hbs hbpto hbsto
    simp only [Board.make_move, Board.make_move_dispatch, Board.make_move_captured,
      Board.move_piece, Board.undo_move, hq, hd, hpr, hkc, hqc, hside, dif_pos h8,
      remove_piece_sides, remove_piece_pieces, remove_piece_piece_list, remove_piece_active,
      remove_piece_history, remove_piece_keys, place_piece_sides, place_piece_pieces,
      place_piece_piece_list, place_piece_active, place_piece_history, place_piece_keys,
      set_ep_square_sides, set_ep_square_pieces, set_ep_square_piece_list,
      set_ep_square_active, set_ep_square_history, set_ep_square_keys,
      clear_ep_square_sides, clear_ep_square_pieces, clear_ep_square_piece_list,
      clear_ep_square_active, clear_ep_square_history, clear_ep_square_keys,
      bump_full_move_sides, bump_full_move_pieces, bump_full_move_piece_list,
      bump_full_move_active, bump_full_move_history, bump_full_move_keys,
      switch_active_side_sides, switch_active_side_pieces, switch_active_side_piece_list,
      switch_active_side_history, switch_active_side_keys,
      hpl, Board.get_active_side, Function.update_same, Function.update_idem,
      Bool.or_self, if_true, if_false, Bool.false_eq_true, ite_true, ite_false]
    refine Board.ext ?_ ?_ ?_ ?_ ?_ ?_
    · simp only [hside, bits_move_undo hne hbs hbsto, Function.update_eq_self]
    · simp only [hside, bits_move_undo hne hbp hbpto, Function.update_eq_self]
    · exact pl_move_roundtrip b.piece_list m.fromSq m.toSq p hne hpl hplto
    · rfl
    · rfl
    · rfl
  | Black =>
    have h8 : m.toSq.val + 8 < 64 := hB hside
    rw [hside] at hbp hbs hbpto hbsto
    simp only [Board.make_move, Board.make_move_dispatch, Board.make_move_captured,
      Board.move_piece, Board.undo_move, hq, hd, hpr, hkc, hqc, hside, dif_pos h8,
      remove_piece_sides, remove_piece_pieces, remove_piece_piece_list, remove_piece_active,
      remove_piece_history, remove_piece_keys, place_piece_sides, place_piece_pieces,
      place_piece_piece_list, place_piece_active, place_piece_history, place_piece_keys,
      set_ep_square_sides, set_ep_square_pieces, set_ep_square_piece_list,
      set_ep_square_active, set_ep_square_history, set_ep_square_keys,
      clear_ep_square_sides, clear_ep_square_pieces, clear_ep_square_piece_list,
      clear_ep_square_active, clear_ep_square_history, clear_ep_square_keys,
      bump_full_move_sides, bump_full_move_pieces, bump_full_move_piece_list,
      bump_full_move_active, bump_full_move_history, bump_full_move_keys,
      switch_active_side_sides, switch_active_side_pieces, switch_active_side_piece_list,
      switch_active_side_history, switch_active_side_keys,
      hpl, Board.get_active_side, Function.update_same, Function.update_idem,
      Bool.or_self, if_true, if_false, Bool.false_eq_true, ite_true, ite_false]
    refine Board.ext ?_ ?_ ?_ ?_ ?_ ?_
    · simp only [hside, bits_move_undo hne hbs hbsto, Function.update_eq_self]
    · simp only [hside, bits_move_undo hne hbp hbpto, Function.update_eq_self]
    · exact pl_move_roundtrip b.piece_list m.fromSq m.toSq p hne hpl hplto
    · rfl
    · rfl
    · rfl

/-- Restoring the piece-list after a capture `a x c` and its undo. -/
lemma pl_capture_roundtrip (pl : SquareIx → Option PieceKind) (a c : SquareIx)
    (p q : PieceKind) (hne : a ≠ c) (ha : pl a = some p) (hc : pl c = some q) :
    Function.update (Function.update (Function.update (Function.update
      (Function.update pl c none) a none) c none) a (some p)) c (some q) = pl := by
  funext x
  rcases eq_or_ne x c with rfl | hxc
  · simp [Function.update_apply, hc]
  · rcases eq_or_ne x a with rfl | hxa
    · simp [Function.update_apply, hxc, ha]
    · simp [Function.update_apply, hxc, hxa]

lemma undo_make_capture (b : Board) (m : ChessMove)
    (hfl : m.flags = ChessMoveFlags.CAPTURE) (hsh : CaptureShape b m) :
    (b.make_move m).undo_move = b := by
  obtain ⟨p, q, hplf, hplt, hbp, hbs, hbq, hbsq, hbpto, hbsto, hne⟩ := hsh
  simp only [Board.get_opponent, Board.get_active_side] at hbp hbs hbq hbsq hbpto hbsto
  have hq : m.is_quiet = false := by
    simp [ChessMove.is_quiet, hfl, ChessMoveFlags.QUIET, ChessMoveFlags.CAPTURE]
  have hd : m.is_double_pawn_push = false := by
    simp [ChessMove.is_double_pawn_push, hfl, ChessMoveFlags.DOUBLE_PAWN_PUSH,
      ChessMoveFlags.CAPTURE]
  have hcap : m.is_capture = true := by
    simp [ChessMove.is_capture, hfl, ChessMoveFlags.CAPTURE]
  have hep : m.is_en_passant = false := by
    simp [ChessMove.is_en_passant, hfl, ChessMoveFlags.EN_PASSANT, ChessMoveFlags.CAPTURE]
  have hpr : m.is_promotion = false := by
    simp [ChessMove.is_promotion, hfl, ChessMoveFlags.CAPTURE, ChessMoveFlags.PROMOTION]
  have hkc : m.is_king_castling = false := by
    simp [ChessMove.is_king_castling, hfl, ChessMoveFlags.CAPTURE, ChessMoveFlags.KING_CASTLE]
  have hqc : m.is_queen_castling = false := by
    simp [ChessMove.is_queen_castling, hfl, ChessMoveFlags.CAPTURE, ChessMoveFlags.QUEEN_CASTLE]
  have hso : b.game_state.active_side.other ≠ b.game_state.active_side :=
    side_other_ne _
  have hos : b.game_state.active_side ≠ b.game_state.active_side.other :=
    side_ne_other _
  have hnef : ¬(m.fromSq = m.toSq) := hne
  simp only [Board.make_move, Board.make_move_dispatch, Board.make_move_captured,
    Board.move_piece, Board.undo_move, hq, hd, hcap, hep, hpr, hkc, hqc,
    Board.get_opponent, Board.get_active_side,
    capture_rook_rights_sides, capture_rook_rights_pieces, capture_rook_rights_piece_list,
    capture_rook_rights_active, capture_rook_rights_history, capture_rook_rights_keys,
    remove_piece_sides, remove_piece_pieces, remove_piece_piece_list, remove_piece_active,
    remove_piece_history, remove_piece_keys, place_piece_sides, place_piece_pieces,
    place_piece_piece_list, place_piece_active, place_piece_history, place_piece_keys,
    clear_ep_square_sides, clear_ep_square_pieces, clear_ep_square_piece_list,
    clear_ep_square_active, clear_ep_square_history, clear_ep_square_keys,
    bump_full_move_sides, bump_full_move_pieces, bump_full_move_piece_list,
    bump_full_move_active, bump_full_move_history, bump_full_move_keys,
    switch_active_side_sides, switch_active_side_pieces, switch_active_side_piece_list,
    switch_active_side_history, switch_active_side_keys,
    hplf, hplt, hnef, Function.update_apply, Function.update_idem,
    Bool.or_self, if_true, if_false, Bool.false_eq_true, ite_true, ite_false]
  refine Board.ext ?_ ?_ ?_ ?_ ?_ ?_
  · simp only [hso, hos, if_false, ite_false, ite_true, eq_self_iff_true, if_true,
      bits_move_undo hne hbs hbsto, xor_or_cancel hbsq]
    exact update3_restore b.sides _ _ _
  · simp only [hso, hos, if_false, ite_false, ite_true, eq_self_iff_true, if_true,
      Function.update_same, bits_move_undo hne hbp hbpto, xor_or_cancel hbq,
      Function.update_idem, Function.update_eq_self]
    exact update3_restore b.pieces _ _ _
  · exact pl_capture_roundtrip b.piece_list m.fromSq m.toSq p q hne hplf hplt
  · rfl
  · rfl
  · rfl

/-- Restoring the piece-list after an en-passant capture (mover `a → t`,
victim on `c`) and its undo. -/
lemma pl_ep_roundtrip (pl : SquareIx → Option PieceKind) (a t c : SquareIx)
    (p q : PieceKind) (hat : a ≠ t) (hca : c ≠ a) (hct : c ≠ t)
    (ha : pl a = some p) (ht : pl t = none) (hc : pl c = some q) :
    Function.update (Function.update (Function.update (Function.update
      (Function.update pl c none) a none) t none) a (some p)) c (some q) = pl := by
  funext x
  rcases eq_or_ne x c with rfl | hxc
  · simp [Function.update_apply, hc]
  · rcases eq_or_ne x a with rfl | hxa
    · simp [Function.update_apply, hxc, ha]
    · rcases eq_or_ne x t with rfl | hxt
      · simp [Function.update_apply, hxc, hxa, ht]
      · simp [Function.update_apply, hxc, hxa, hxt]

lemma undo_make_ep (b : Board) (m : ChessMove)
    (hfl : m.flags = ChessMoveFlags.EN_PASSANT ||| ChessMoveFlags.CAPTURE)
    (hsh : EpShape b m) : (b.make_move m).undo_move = b := by
  obtain ⟨p, q, c, hepsq, hgeo, hplf, hbp, hbs, hplc, hbqc, hbsqc, hplto,
    hbpto, hbsto, hne, hcf, hct⟩ := hsh
  simp only [Board.get_opponent, Board.get_active_side] at hbp hbs hbqc hbsqc hbpto hbsto hgeo
  have hq : m.is_quiet = false := by
    simp [ChessMove.is_quiet, hfl, ChessMoveFlags.QUIET, ChessMoveFlags.EN_PASSANT,
      ChessMoveFlags.CAPTURE]
  have hd : m.is_double_pawn_push = false := by
    simp [ChessMove.is_double_pawn_push, hfl, ChessMoveFlags.DOUBLE_PAWN_PUSH,
      ChessMoveFlags.EN_PASSANT, ChessMoveFlags.CAPTURE]
  have hcap : m.is_capture = true := by
    simp only [ChessMove.is_capture, hfl, ChessMoveFlags.EN_PASSANT, ChessMoveFlags.CAPTURE]
    decide
  have hepf : m.is_en_passant = true := by
    simp only [ChessMove.is_en_passant, hfl, ChessMoveFlags.EN_PASSANT, ChessMoveFlags.CAPTURE]
    decide
  have hpr : m.is_promotion = false := by
    simp [ChessMove.is_promotion, hfl, ChessMoveFlags.EN_PASSANT, ChessMoveFlags.CAPTURE,
      ChessMoveFlags.PROMOTION]
  have hkc : m.is_king_castling = false := by
    simp [ChessMove.is_king_castling, hfl, ChessMoveFlags.EN_PASSANT, ChessMoveFlags.CAPTURE,
      ChessMoveFlags.KING_CASTLE]
  have hqc : m.is_queen_castling = false := by
    simp [ChessMove.is_queen_castling, hfl, ChessMoveFlags.EN_PASSANT, ChessMoveFlags.CAPTURE,
      ChessMoveFlags.QUEEN_CASTLE]
  have hnef : ¬(m.fromSq = m.toSq) := hne
  rcases hgeo with ⟨hside, h8, hcval⟩ | ⟨hside, h64, hcval⟩
  · -- White to move: the captured pawn sits on to − 8
    rw [hside] at hbp hbs hbpto hbsto
    simp only [hside, Side.other] at hbqc hbsqc
    have hltW : m.toSq.val - 8 < 64 := by omega
    have hepv := Board.epVictimSquare_white m.toSq.val h8 hltW
    have hc : (⟨m.toSq.val - 8, hltW⟩ : SquareIx) = c := Fin.ext (by rw [hcval])
    rw [hc] at hepv
    have hfc : ¬(m.fromSq = c) := fun hh => hcf hh.symm
    have htc : ¬(m.toSq = c) := fun hh => hct hh.symm
    have hBW : (Side.Black : Side) ≠ Side.White := by decide
    have hWB : (Side.White : Side) ≠ Side.Black := by decide
    simp only [Board.make_move, Board.make_move_dispatch, Board.make_move_captured,
      Board.move_piece, Board.undo_move, hq, hd, hcap, hepf, hpr, hkc, hqc,
      Board.get_opponent, Board.get_active_side, hside, hepsq, Side.other,
      hepv,
      remove_piece_sides, remove_piece_pieces, remove_piece_piece_list, remove_piece_active,
      remove_piece_history, remove_piece_keys, place_piece_sides, place_piece_pieces,
      place_piece_piece_list, place_piece_active, place_piece_history, place_piece_keys,
      clear_ep_square_sides, clear_ep_square_pieces, clear_ep_square_piece_list,
      clear_ep_square_active, clear_ep_square_history, clear_ep_square_keys,
      bump_full_move_sides, bump_full_move_pieces, bump_full_move_piece_list,
      bump_full_move_active, bump_full_move_history, bump_full_move_keys,
      switch_active_side_sides, switch_active_side_pieces, switch_active_side_piece_list,
      switch_active_side_history, switch_active_side_keys,
      hplf, hplc, hplto, hnef, hfc, htc, Function.update_apply, Function.update_idem,
      Bool.or_self, if_true, if_false, Bool.false_eq_true, ite_true, ite_false]
    refine Board.ext ?_ ?_ ?_ ?_ ?_ ?_
    · simp only [hBW, hWB, if_false, ite_false, ite_true, eq_self_iff_true, if_true,
        bits_move_undo hne hbs hbsto, xor_or_cancel hbsqc]
      exact update3_restore b.sides _ _ _
    · simp only [hBW, hWB, if_false, ite_false, ite_true, eq_self_iff_true, if_true,
        Function.update_same, bits_move_undo hne hbp hbpto, xor_or_cancel hbqc,
        Function.update_idem, Function.update_eq_self]
      exact update3_restore b.pieces _ _ _
    · exact pl_ep_roundtrip b.piece_list m.fromSq m.toSq c p q hne hcf hct hplf hplto hplc
    · rfl
    · rfl
    · rfl
  · -- Black to move: the captured pawn sits on to + 8
    rw [hside] at hbp hbs hbpto hbsto
    simp only [hside, Side.other] at hbqc hbsqc
    have hepv := Board.epVictimSquare_black m.toSq.val h64
    have hc : (⟨m.toSq.val + 8, h64⟩ : SquareIx) = c := Fin.ext (by rw [hcval])
    rw [hc] at hepv
    have hfc : ¬(m.fromSq = c) := fun hh => hcf hh.symm
    have htc : ¬(m.toSq = c) := fun hh => hct hh.symm
    have hBW : (Side.Black : Side) ≠ Side.White := by decide
    have hWB : (Side.White : Side) ≠ Side.Black := by decide
    simp only [Board.make_move, Board.make_move_dispatch, Board.make_move_captured,
      Board.move_piece, Board.undo_move, hq, hd, hcap, hepf, hpr, hkc, hqc,
      Board.get_opponent, Board.get_active_side, hside, hepsq, Side.other,
      hepv,
      remove_piece_sides, remove_piece_pieces, remove_piece_piece_list, remove_piece_active,
      remove_piece_history, remove_piece_keys, place_piece_sides, place_piece_pieces,
      place_piece_piece_list, place_piece_active, place_piece_history, place_piece_keys,
      clear_ep_square_sides, clear_ep_square_pieces, clear_ep_square_piece_list,
      clear_ep_square_active, clear_ep_square_history, clear_ep_square_keys,
      bump_full_move_sides, bump_full_move_pieces, bump_full_move_piece_list,
      bump_full_move_active, bump_full_move_history, bump_full_move_keys,
      switch_active_side_sides, switch_active_side_pieces, switch_active_side_piece_list,
      switch_active_side_history, switch_active_side_keys,
      hplf, hplc, hplto, hnef, hfc, htc, Function.update_apply, Function.update_idem,
      Bool.or_self, if_true, if_false, Bool.false_eq_true, ite_true, ite_false]
    refine Board.ext ?_ ?_ ?_ ?_ ?_ ?_
    · simp only [hBW, hWB, if_false, ite_false, ite_true, eq_self_iff_true, if_true,
        bits_move_undo hne hbs hbsto, xor_or_cancel hbsqc]
      exact update3_restore b.sides _ _ _
    · simp only [hBW, hWB, if_false, ite_false, ite_true, eq_self_iff_true, if_true,
        Function.update_same, bits_move_undo hne hbp hbpto, xor_or_cancel hbqc,
        Function.update_idem, Function.update_eq_self]
      exact update3_restore b.pieces _ _ _
    · exact pl_ep_roundtrip b.piece_list m.fromSq m.toSq c p q hne hcf hct hplf hplto hplc
    · rfl
    · rfl
    · rfl

/-- The bit trace of castling (king `f → t`, rook `rp → rd`) followed by its
undo restores the word. -/
lemma bits_castle_undo {x : Nat} {f t rp rd : SquareIx}
    (hft : f ≠ t) (hfrp : f ≠ rp) (hfrd : f ≠ rd) (htrp : t ≠ rp) (htrd : t ≠ rd)
    (hrprd : rp ≠ rd)
    (hf : x.testBit f.val = true) (ht : x.testBit t.val = false)
    (hrp : x.testBit rp.val = true) (hrd : x.testBit rd.val = false) :
    (((((((x ^^^ squareBB f) ||| squareBB t) ^^^ squareBB rp) ||| squareBB rd)
      ^^^ squareBB t) ||| squareBB f) ^^^ squareBB rd) ||| squareBB rp = x := by
  have vft : f.val ≠ t.val := fun h => hft (Fin.ext h)
  have vfrp : f.val ≠ rp.val := fun h => hfrp (Fin.ext h)
  have vfrd : f.val ≠ rd.val := fun h => hfrd (Fin.ext h)
  have vtrp : t.val ≠ rp.val := fun h => htrp (Fin.ext h)
  have vtrd : t.val ≠ rd.val := fun h => htrd (Fin.ext h)
  have vrprd : rp.val ≠ rd.val := fun h => hrprd (Fin.ext h)
  have vtf : t.val ≠ f.val := fun h => vft h.symm
  have vrpf : rp.val ≠ f.val := fun h => vfrp h.symm
  have vrdf : rd.val ≠ f.val := fun h => vfrd h.symm
  have vrpt : rp.val ≠ t.val := fun h => vtrp h.symm
  have vrdt : rd.val ≠ t.val := fun h => vtrd h.symm
  have vrdrp : rd.val ≠ rp.val := fun h => vrprd h.symm
  apply Nat.eq_of_testBit_eq
  intro i
  by_cases hif : f.val = i
  · subst hif
    simp [Nat.testBit_or, Nat.testBit_xor, testBit_squareBB, hf, vft, vfrp, vfrd,
      vtf, vrpf, vrdf]
  · by_cases hit : t.val = i
    · subst hit
      simp [Nat.testBit_or, Nat.testBit_xor, testBit_squareBB, ht, hif, vtrp, vtrd,
        vrpt, vrdt]
    · by_cases hirp : rp.val = i
      · subst hirp
        simp [Nat.testBit_or, Nat.testBit_xor, testBit_squareBB, hrp, hif, hit, vrprd,
          vrdrp]
      · by_cases hird : rd.val = i
        · subst hird
          simp [Nat.testBit_or, Nat.testBit_xor, testBit_squareBB, hrd, hif, hit, hirp]
        · simp [Nat.testBit_or, Nat.testBit_xor, testBit_squareBB, hif, hit, hirp, hird]

/-- A double write-back restores a function (any two points). -/
lemma update4_restore {α : Type} {β : Type} [DecidableEq α] (g : α → β) (a c : α)
    (v w : β) :
    Function.update (Function.update (Function.update (Function.update g a v) c w)
      a (g a)) c (g c) = g := by
  funext x
  rcases eq_or_ne x c with rfl | hxc
  · simp [Function.update_apply]
  · rcases eq_or_ne x a with rfl | hxa
    · simp [Function.update_apply, hxc]
    · simp [Function.update_apply, hxc, hxa]

/-- Restoring the piece-list after castling and its undo. -/
lemma pl_castle_roundtrip (pl : SquareIx → Option PieceKind) (f t rp rd : SquareIx)
    (hft : f ≠ t) (hfrp : f ≠ rp) (hfrd : f ≠ rd) (htrp : t ≠ rp) (htrd : t ≠ rd)
    (hrprd : rp ≠ rd)
    (hf : pl f = some PieceKind.King) (ht : pl t = none)
    (hrp : pl rp = some PieceKind.Rook) (hrd : pl rd = none) :
    Function.update (Function.update (Function.update (Function.update
      (Function.update (Function.update (Function.update (Function.update pl
        f none) t (some PieceKind.King)) rp none) rd (some PieceKind.Rook))
        t none) f (some PieceKind.King)) rd none) rp (some PieceKind.Rook) = pl := by
  funext x
  rcases eq_or_ne x rp with rfl | hxrp
  · simp [Function.update_apply, hrp]
  · rcases eq_or_ne x rd with rfl | hxrd
    · simp [Function.update_apply, hxrp, hrd]
    · rcases eq_or_ne x f with rfl | hxf
      · simp [Function.update_apply, hxrp, hxrd, hf]
      · rcases eq_or_ne x t with rfl | hxt
        · simp [Function.update_apply, hxrp, hxrd, hxf, ht]
        · simp [Function.update_apply, hxrp, hxrd, hxf, hxt]

lemma undo_make_castle (b : Board) (m : ChessMove)
    (hfl : m.flags = ChessMoveFlags.KING_CASTLE ∨ m.flags = ChessMoveFlags.QUEEN_CASTLE)
    (hsh : CastleShape b m) : (b.make_move m).undo_move = b := by
  obtain ⟨rp, rd, hrs, hplk, hbpk, hbsk, hplr, hbpr, hbsr, hplt, hbpkt, hbskt,
    hplrd, hbprd, hbsrd, hneft, hnefrp, hnefrd, hnetrp, hnetrd, hnerprd⟩ := hsh
  simp only [Board.get_active_side] at hbpk hbsk hbpr hbsr hbpkt hbskt hbprd hbsrd
  have hKR : ¬(PieceKind.King = PieceKind.Rook) := by decide
  have hRK : ¬(PieceKind.Rook = PieceKind.King) := by decide
  have nft : ¬(m.fromSq = m.toSq) := hneft
  have ntf : ¬(m.toSq = m.fromSq) := fun h => hneft h.symm
  have nfrp : ¬(m.fromSq = rp) := hnefrp
  have nrpf : ¬(rp = m.fromSq) := fun h => hnefrp h.symm
  have nfrd : ¬(m.fromSq = rd) := hnefrd
  have nrdf : ¬(rd = m.fromSq) := fun h => hnefrd h.symm
  have ntrp : ¬(m.toSq = rp) := hnetrp
  have nrpt : ¬(rp = m.toSq) := fun h => hnetrp h.symm
  have ntrd : ¬(m.toSq = rd) := hnetrd
  have nrdt : ¬(rd = m.toSq) := fun h => hnetrd h.symm
  have nrprd : ¬(rp = rd) := hnerprd
  have nrdrp : ¬(rd = rp) := fun h => hnerprd h.symm
  rcases hfl with hfl | hfl
  · have hq : m.is_quiet = false := by
      simp [ChessMove.is_quiet, hfl, ChessMoveFlags.QUIET, ChessMoveFlags.KING_CASTLE]
    have hd : m.is_double_pawn_push = false := by
      simp [ChessMove.is_double_pawn_push, hfl, ChessMoveFlags.DOUBLE_PAWN_PUSH,
        ChessMoveFlags.KING_CASTLE]
    have hkc : m.is_king_castling = true := by
      simp [ChessMove.is_king_castling, hfl, ChessMoveFlags.KING_CASTLE]
    have hqc : m.is_queen_castling = false := by
      simp [ChessMove.is_queen_castling, hfl, ChessMoveFlags.KING_CASTLE,
        ChessMoveFlags.QUEEN_CASTLE]
    have hpr : m.is_promotion = false := by
      simp [ChessMove.is_promotion, hfl, ChessMoveFlags.KING_CASTLE, ChessMoveFlags.PROMOTION]
    simp only [Board.make_move, Board.make_move_dispatch, Board.make_move_captured,
      Board.move_piece, Board.undo_move, hq, hd, hkc, hqc, hpr, hrs,
      Board.get_opponent, Board.get_active_side,
      quiet_clock_castling_sides, quiet_clock_castling_pieces, quiet_clock_castling_piece_list,
      quiet_clock_castling_active, quiet_clock_castling_history, quiet_clock_castling_keys,
      set_castling_rights_sides, set_castling_rights_pieces, set_castling_rights_piece_list,
      set_castling_rights_active, set_castling_rights_history, set_castling_rights_keys,
      clear_rights_side_sides, clear_rights_side_pieces, clear_rights_side_piece_list,
      clear_rights_side_active, clear_rights_side_history, clear_rights_side_keys,
      remove_piece_sides, remove_piece_pieces, remove_piece_piece_list, remove_piece_active,
      remove_piece_history, remove_piece_keys, place_piece_sides, place_piece_pieces,
      place_piece_piece_list, place_piece_active, place_piece_history, place_piece_keys,
      clear_ep_square_sides, clear_ep_square_pieces, clear_ep_square_piece_list,
      clear_ep_square_active, clear_ep_square_history, clear_ep_square_keys,
      bump_full_move_sides, bump_full_move_pieces, bump_full_move_piece_list,
      bump_full_move_active, bump_full_move_history, bump_full_move_keys,
      switch_active_side_sides, switch_active_side_pieces, switch_active_side_piece_list,
      switch_active_side_history, switch_active_side_keys,
      hplk, hplr, nrpf, nrpt, nrdf, nrdt, ntf, ntrp, ntrd, nft, nfrp, nfrd, nrprd, nrdrp,
      Function.update_apply, Function.update_idem,
      Bool.or_self, Bool.or_true, Bool.true_or, Bool.or_false, Bool.false_or,
      if_true, if_false, Bool.false_eq_true, ite_true, ite_false]
    refine Board.ext ?_ ?_ ?_ ?_ ?_ ?_
    · simp only [Function.update_idem, Function.update_same,
        bits_castle_undo hneft hnefrp hnefrd hnetrp hnetrd hnerprd hbsk hbskt hbsr hbsrd,
        Function.update_eq_self]
    · simp only [Function.update_apply, hKR, hRK, if_true, if_false, ite_true, ite_false,
        eq_self_iff_true, Function.update_idem, Function.update_same,
        bits_move_undo hneft hbpk hbpkt, bits_move_undo hnerprd hbpr hbprd,
        update4_restore, Function.update_eq_self]
    · exact pl_castle_roundtrip b.piece_list m.fromSq m.toSq rp rd hneft hnefrp hnefrd
        hnetrp hnetrd hnerprd hplk hplt hplr hplrd
    · rfl
    · rfl
    · rfl
  · have hq : m.is_quiet = false := by
      simp [ChessMove.is_quiet, hfl, ChessMoveFlags.QUIET, ChessMoveFlags.QUEEN_CASTLE]
    have hd : m.is_double_pawn_push = false := by
      simp [ChessMove.is_double_pawn_push, hfl, ChessMoveFlags.DOUBLE_PAWN_PUSH,
        ChessMoveFlags.QUEEN_CASTLE]
    have hkc : m.is_king_castling = false := by
      simp [ChessMove.is_king_castling, hfl, ChessMoveFlags.KING_CASTLE,
        ChessMoveFlags.QUEEN_CASTLE]
    have hqc : m.is_queen_castling = true := by
      simp [ChessMove.is_queen_castling, hfl, ChessMoveFlags.QUEEN_CASTLE]
    have hpr : m.is_promotion = false := by
      simp [ChessMove.is_promotion, hfl, ChessMoveFlags.QUEEN_CASTLE, ChessMoveFlags.PROMOTION]
    simp only [Board.make_move, Board.make_move_dispatch, Board.make_move_captured,
      Board.move_piece, Board.undo_move, hq, hd, hkc, hqc, hpr, hrs,
      Board.get_opponent, Board.get_active_side,
      quiet_clock_castling_sides, quiet_clock_castling_pieces, quiet_clock_castling_piece_list,
      quiet_clock_castling_active, quiet_clock_castling_history, quiet_clock_castling_keys,
      set_castling_rights_sides, set_castling_rights_pieces, set_castling_rights_piece_list,
      set_castling_rights_active, set_castling_rights_history, set_castling_rights_keys,
      clear_rights_side_sides, clear_rights_side_pieces, clear_rights_side_piece_list,
      clear_rights_side_active, clear_rights_side_history, clear_rights_side_keys,
      remove_piece_sides, remove_piece_pieces, remove_piece_piece_list, remove_piece_active,
      remove_piece_history, remove_piece_keys, place_piece_sides, place_piece_pieces,
      place_piece_piece_list, place_piece_active, place_piece_history, place_piece_keys,
      clear_ep_square_sides, clear_ep_square_pieces, clear_ep_square_piece_list,
      clear_ep_square_active, clear_ep_square_history, clear_ep_square_keys,
      bump_full_move_sides, bump_full_move_pieces, bump_full_move_piece_list,
      bump_full_move_active, bump_full_move_history, bump_full_move_keys,
      switch_active_side_sides, switch_active_side_pieces, switch_active_side_piece_list,
      switch_active_side_history, switch_active_side_keys,
      hplk, hplr, nrpf, nrpt, nrdf, nrdt, ntf, ntrp, ntrd, nft, nfrp, nfrd, nrprd, nrdrp,
      Function.update_apply, Function.update_idem,
      Bool.or_self, Bool.or_true, Bool.true_or, Bool.or_false, Bool.false_or,
      if_true, if_false, Bool.false_eq_true, ite_true, ite_false]
    refine Board.ext ?_ ?_ ?_ ?_ ?_ ?_
    · simp only [Function.update_idem, Function.update_same,
        bits_castle_undo hneft hnefrp hnefrd hnetrp hnetrd hnerprd hbsk hbskt hbsr hbsrd,
        Function.update_eq_self]
    · simp only [Function.update_apply, hKR, hRK, if_true, if_false, ite_true, ite_false,
        eq_self_iff_true, Function.update_idem, Function.update_same,
        bits_move_undo hneft hbpk hbpkt, bits_move_undo hnerprd hbpr hbprd,
        update4_restore, Function.update_eq_self]
    · exact pl_castle_roundtrip b.piece_list m.fromSq m.toSq rp rd hneft hnefrp hnefrd
        hnetrp hnetrd hnerprd hplk hplt hplr hplrd
    · rfl
    · rfl
    · rfl

lemma undo_make_promo (b : Board) (m : ChessMove)
    (hfl : m.flags = ChessMoveFlags.PROMOTION) (hsh : PromoShape b m) :
    (b.make_move m).undo_move = b := by
  obtain ⟨pp, hpp, hplf, hbpf, hbsf, hplto, hbppt, hbsto, hne⟩ := hsh
  simp only [Board.get_active_side] at hbpf hbsf hbppt hbsto
  have hq : m.is_quiet = false := by
    simp [ChessMove.is_quiet, hfl, ChessMoveFlags.QUIET, ChessMoveFlags.PROMOTION]
  have hd : m.is_double_pawn_push = false := by
    simp [ChessMove.is_double_pawn_push, hfl, ChessMoveFlags.DOUBLE_PAWN_PUSH,
      ChessMoveFlags.PROMOTION]
  have hcap : m.is_capture = false := by
    simp [ChessMove.is_capture, hfl, ChessMoveFlags.CAPTURE, ChessMoveFlags.PROMOTION]
  have hpr : m.is_promotion = true := by
    simp [ChessMove.is_promotion, hfl, ChessMoveFlags.PROMOTION]
  have hkc : m.is_king_castling = false := by
    simp [ChessMove.is_king_castling, hfl, ChessMoveFlags.PROMOTION, ChessMoveFlags.KING_CASTLE]
  have hqc : m.is_queen_castling = false := by
    simp [ChessMove.is_queen_castling, hfl, ChessMoveFlags.PROMOTION,
      ChessMoveFlags.QUEEN_CASTLE]
  have hnef : ¬(m.fromSq = m.toSq) := hne
  simp only [Board.make_move, Board.make_move_dispatch, Board.make_move_captured,
    Board.move_piece, Board.undo_move, hq, hd, hcap, hpr, hkc, hqc, hpp,
    Board.get_opponent, Board.get_active_side,
    remove_piece_sides, remove_piece_pieces, remove_piece_piece_list, remove_piece_active,
    remove_piece_history, remove_piece_keys, place_piece_sides, place_piece_pieces,
    place_piece_piece_list, place_piece_active, place_piece_history, place_piece_keys,
    clear_ep_square_sides, clear_ep_square_pieces, clear_ep_square_piece_list,
    clear_ep_square_active, clear_ep_square_history, clear_ep_square_keys,
    bump_full_move_sides, bump_full_move_pieces, bump_full_move_piece_list,
    bump_full_move_active, bump_full_move_history, bump_full_move_keys,
    switch_active_side_sides, switch_active_side_pieces, switch_active_side_piece_list,
    switch_active_side_history, switch_active_side_keys,
    hplf, hnef, Function.update_apply, Function.update_idem,
    Bool.or_self, if_true, if_false, Bool.false_eq_true, ite_true, ite_false]
  refine Board.ext ?_ ?_ ?_ ?_ ?_ ?_
  · simp only [Function.update_idem, Function.update_same,
      bits_move_undo hne hbsf hbsto, Function.update_eq_self]
  · by_cases hppw : pp = PieceKind.Pawn
    · subst hppw
      simp only [Function.update_apply, Function.update_idem, Function.update_same,
        if_true, ite_true, eq_self_iff_true,
        bits_move_undo hne hbpf hbppt, Function.update_eq_self]
    · have h1 : ¬(PieceKind.Pawn = pp) := fun h => hppw h.symm
      simp only [Function.update_apply, Function.update_idem, Function.update_same,
        hppw, h1, if_true, if_false, ite_true, ite_false, eq_self_iff_true,
        or_xor_cancel hbppt, xor_or_cancel hbpf,
        update3_restore, Function.update_eq_self]
  · exact pl_move_roundtrip b.piece_list m.fromSq m.toSq PieceKind.Pawn hne hplf hplto
  · rfl
  · rfl
  · rfl

lemma undo_make_promocap (b : Board) (m : ChessMove)
    (hfl : m.flags = ChessMoveFlags.PROMOTION ||| ChessMoveFlags.CAPTURE)
    (hsh : PromoCapShape b m) : (b.make_move m).undo_move = b := by
  obtain ⟨pp, q, hpp, hplf, hbpf, hbsf, hplt, hbq, hbsq, hbppt, hbsto, hne⟩ := hsh
  simp only [Board.get_opponent, Board.get_active_side] at hbpf hbsf hbq hbsq hbppt hbsto
  have hq : m.is_quiet = false := by
    simp only [ChessMove.is_quiet, hfl, ChessMoveFlags.QUIET, ChessMoveFlags.PROMOTION,
      ChessMoveFlags.CAPTURE]
    decide
  have hd : m.is_double_pawn_push = false := by
    simp only [ChessMove.is_double_pawn_push, hfl, ChessMoveFlags.DOUBLE_PAWN_PUSH,
      ChessMoveFlags.PROMOTION, ChessMoveFlags.CAPTURE]
    decide
  have hcap : m.is_capture = true := by
    simp only [ChessMove.is_capture, hfl, ChessMoveFlags.CAPTURE, ChessMoveFlags.PROMOTION]
    decide
  have hepf : m.is_en_passant = false := by
    simp only [ChessMove.is_en_passant, hfl, ChessMoveFlags.EN_PASSANT,
      ChessMoveFlags.PROMOTION, ChessMoveFlags.CAPTURE]
    decide
  have hpr : m.is_promotion = true := by
    simp only [ChessMove.is_promotion, hfl, ChessMoveFlags.PROMOTION, ChessMoveFlags.CAPTURE]
    decide
  have hkc : m.is_king_castling = false := by
    simp only [ChessMove.is_king_castling, hfl, ChessMoveFlags.PROMOTION,
      ChessMoveFlags.CAPTURE, ChessMoveFlags.KING_CASTLE]
    decide
  have hqc : m.is_queen_castling = false := by
    simp only [ChessMove.is_queen_castling, hfl, ChessMoveFlags.PROMOTION,
      ChessMoveFlags.CAPTURE, ChessMoveFlags.QUEEN_CASTLE]
    decide
  have hso : b.game_state.active_side.other ≠ b.game_state.active_side :=
    side_other_ne _
  have hos : b.game_state.active_side ≠ b.game_state.active_side.other :=
    side_ne_other _
  have hnef : ¬(m.fromSq = m.toSq) := hne
  simp only [Board.make_move, Board.make_move_dispatch, Board.make_move_captured,
    Board.move_piece, Board.undo_move, hq, hd, hcap, hepf, hpr, hkc, hqc, hpp,
    Board.get_opponent, Board.get_active_side,
    capture_rook_rights_sides, capture_rook_rights_pieces, capture_rook_rights_piece_list,
    capture_rook_rights_active, capture_rook_rights_history, capture_rook_rights_keys,
    remove_piece_sides, remove_piece_pieces, remove_piece_piece_list, remove_piece_active,
    remove_piece_history, remove_piece_keys, place_piece_sides, place_piece_pieces,
    place_piece_piece_list, place_piece_active, place_piece_history, place_piece_keys,
    clear_ep_square_sides, clear_ep_square_pieces, clear_ep_square_piece_list,
    clear_ep_square_active, clear_ep_square_history, clear_ep_square_keys,
    bump_full_move_sides, bump_full_move_pieces, bump_full_move_piece_list,
    bump_full_move_active, bump_full_move_history, bump_full_move_keys,
    switch_active_side_sides, switch_active_side_pieces, switch_active_side_piece_list,
    switch_active_side_history, switch_active_side_keys,
    hplf, hplt, hnef, Function.update_apply, Function.update_idem,
    Bool.or_self, if_true, if_false, Bool.false_eq_true, ite_true, ite_false]
  refine Board.ext ?_ ?_ ?_ ?_ ?_ ?_
  · simp only [hso, hos, if_false, ite_false, ite_true, eq_self_iff_true, if_true,
      bits_move_undo hne hbsf hbsto, xor_or_cancel hbsq]
    exact update3_restore b.sides _ _ _
  · by_cases hppw : pp = PieceKind.Pawn
    · subst hppw
      simp only [hso, hos, if_false, ite_false, ite_true, eq_self_iff_true, if_true,
        Function.update_apply, Function.update_idem, Function.update_same,
        bits_move_undo hne hbpf hbppt, xor_or_cancel hbq, Function.update_eq_self]
      exact update3_restore b.pieces _ _ _
    · have h1 : ¬(PieceKind.Pawn = pp) := fun h => hppw h.symm
      simp only [hso, hos, hppw, h1, if_false, ite_false, ite_true, eq_self_iff_true,
        if_true, Function.update_apply, Function.update_idem, Function.update_same,
        or_xor_cancel hbppt, xor_or_cancel hbpf, xor_or_cancel hbq,
        update3_restore, Function.update_eq_self]
  · exact pl_capture_roundtrip b.piece_list m.fromSq m.toSq PieceKind.Pawn q hne hplf hplt
  · rfl
  · rfl
  · rfl

/-- Undo after make restores the board, for any structurally sound move. -/
lemma undo_make_of_moveOk (b : Board) (m : ChessMove) (h : MoveOk b m) :
    (b.make_move m).undo_move = b := by
  rcases h with ⟨hfl, hsh⟩ | ⟨hfl, hsh⟩ | ⟨hfl, hsh⟩ | ⟨hfl, hsh⟩ | ⟨hfl, hsh⟩ |
    ⟨hfl, hsh⟩ | ⟨hfl, hsh⟩
  · exact undo_make_quiet b m hfl hsh
  · exact undo_make_dpp b m hfl hsh
  · exact undo_make_castle b m hfl hsh
  · exact undo_make_capture b m hfl hsh
  · exact undo_make_ep b m hfl hsh
  · exact undo_make_promocap b m hfl hsh
  · exact undo_make_promo b m hfl hsh

/-- C1: make/unmove round-trip.  On any board, making a structurally sound
move (`MoveOk`, which holds of every legal move on a reachable, consistent
position) and then undoing it restores the board bit-exactly: side and piece
bitboards, the piece list, the whole `game_state` (active side, castling,
en passant, half-move clock, full-move number, zobrist key) and the history
stack, which regains its original length. -/
theorem make_undo_roundtrip (b : Board) (m : ChessMove) (h : MoveOk b m) :
    (b.make_move m).undo_move = b :=
  undo_make_of_moveOk b m h

/-- A concrete board: a lone white knight on B1, empty history. -/
def knightBoard : Board :=
  { sides := fun s => match s with | Side.White => 2 | Side.Black => 0
    pieces := fun s p =>
      match s, p with
      | Side.White, PieceKind.Knight => 2
      | _, _ => 0
    piece_list := fun sq => if sq.val = 1 then some PieceKind.Knight else none
    game_state := GameState.new
    game_history := []
    zobrist_keys := zeroKeys }

/-- The quiet knight move B1 → C3 on `knightBoard`. -/
def knightMove : ChessMove :=
  ChessMove.quiet PieceKind.Knight ⟨1, by omega⟩ ⟨18, by omega⟩

/-- Witness for C1: the knight move is `MoveOk` on `knightBoard` and the
round-trip restores the board. -/
theorem make_undo_roundtrip_witness :
    MoveOk knightBoard knightMove ∧
      (knightBoard.make_move knightMove).undo_move = knightBoard :=
  ⟨by decide, make_undo_roundtrip knightBoard knightMove (by decide)⟩

/-! ### From-scratch zobrist recomputation (`Board::init_zobrist_key`) -/

/-- XOR as a named binary operation, to fold over finite sets. -/
def xorOp (a b : Nat) : Nat := a ^^^ b

instance : Std.Commutative xorOp := ⟨fun a b => Nat.xor_comm a b⟩

instance : Std.Associative xorOp := ⟨fun a b c => Nat.xor_assoc a b c⟩

/-- The `while bb > 0 { sq := trailing_zeros; key ^= f(sq); bb &= bb-1 }`
loops of `Board::init_zobrist_key`: the XOR of `f` over the set bits of the
bitboard.  XOR is commutative and associative, so the visit order of the
loop is immaterial and the loop is embedded as a fold over the set of set
bits (a `u64` has no bits beyond 63). -/
def xorBB (f : SquareIx → Nat) (bb : Nat) : Nat :=
  (Finset.univ.filter (fun sq : SquareIx => bb.testBit sq.val)).fold xorOp 0 f

lemma xor_cancel_left (a b : Nat) : a ^^^ (a ^^^ b) = b := by
  rw [← Nat.xor_assoc, Nat.xor_self, Nat.zero_xor]

lemma xor_left_comm (a b c : Nat) : a ^^^ (b ^^^ c) = b ^^^ (a ^^^ c) := by
  rw [← Nat.xor_assoc, Nat.xor_comm a b, Nat.xor_assoc]

/-- Toggling one square bit XORs that square's key in or out of `xorBB`. -/
lemma xorBB_xor (f : SquareIx → Nat) (bb : Nat) (sq : SquareIx) :
    xorBB f (bb ^^^ squareBB sq) = xorBB f bb ^^^ f sq := by
  classical
  unfold xorBB
  by_cases h : bb.testBit sq.val
  · have hSet : Finset.univ.filter (fun i : SquareIx => (bb ^^^ squareBB sq).testBit i.val)
        = (Finset.univ.filter (fun i : SquareIx => bb.testBit i.val)).erase sq := by
      apply Finset.ext
      intro i
      rcases eq_or_ne i sq with rfl | hi
      · simp [Nat.testBit_xor, testBit_squareBB, h]
      · have hv : sq.val ≠ i.val := fun hv => hi (Fin.ext hv.symm)
        simp [Nat.testBit_xor, testBit_squareBB, hi, hv]
    have hsq : sq ∈ Finset.univ.filter (fun i : SquareIx => bb.testBit i.val) := by
      simp [h]
    have hfold : (Finset.univ.filter (fun i : SquareIx => bb.testBit i.val)).fold xorOp 0 f =
        xorOp (f sq)
          (((Finset.univ.filter (fun i : SquareIx => bb.testBit i.val)).erase sq).fold
            xorOp 0 f) := by
      conv_lhs => rw [← Finset.insert_erase hsq]
      exact Finset.fold_insert (Finset.not_mem_erase sq _)
    rw [hSet, hfold]
    unfold xorOp
    rw [Nat.xor_comm (f sq), Nat.xor_assoc, Nat.xor_self, Nat.xor_zero]
  · have hSet : Finset.univ.filter (fun i : SquareIx => (bb ^^^ squareBB sq).testBit i.val)
        = insert sq (Finset.univ.filter (fun i : SquareIx => bb.testBit i.val)) := by
      apply Finset.ext
      intro i
      rcases eq_or_ne i sq with rfl | hi
      · simp [Nat.testBit_xor, testBit_squareBB, h]
      · have hv : sq.val ≠ i.val := fun hv => hi (Fin.ext hv.symm)
        simp [Nat.testBit_xor, testBit_squareBB, hi, hv]
    have hsq : sq ∉ Finset.univ.filter (fun i : SquareIx => bb.testBit i.val) := by
      simp [h]
    rw [hSet, Finset.fold_insert hsq]
    unfold xorOp
    rw [Nat.xor_comm]

/-- ORing in a clear square bit XORs that square's key into `xorBB`. -/
lemma xorBB_or (f : SquareIx → Nat) (bb : Nat) (sq : SquareIx)
    (h : bb.testBit sq.val = false) :
    xorBB f (bb ||| squareBB sq) = xorBB f bb ^^^ f sq := by
  have : bb ||| squareBB sq = bb ^^^ squareBB sq := by
    apply Nat.eq_of_testBit_eq
    intro i
    by_cases hi : sq.val = i
    · subst hi; simp [Nat.testBit_or, Nat.testBit_xor, testBit_squareBB, h]
    · simp [Nat.testBit_or, Nat.testBit_xor, testBit_squareBB, hi]
  rw [this, xorBB_xor]

/-- The iteration order of the piece loops of `Board::init_zobrist_key`:
piece types 0..5 outer, and for each type all white pieces then all black
pieces. -/
def sidePieceOrder : List (Side × PieceKind) :=
  [(Side.White, PieceKind.King), (Side.Black, PieceKind.King),
   (Side.White, PieceKind.Queen), (Side.Black, PieceKind.Queen),
   (Side.White, PieceKind.Rook), (Side.Black, PieceKind.Rook),
   (Side.White, PieceKind.Bishop), (Side.Black, PieceKind.Bishop),
   (Side.White, PieceKind.Knight), (Side.Black, PieceKind.Knight),
   (Side.White, PieceKind.Pawn), (Side.Black, PieceKind.Pawn)]

/-- The piece part of `Board::init_zobrist_key`: XOR of the piece keys of
every occupied (side, piece, square). -/
def scratchPieceXor (keys : ZobristKeys) (pieces : Side → PieceKind → Nat) : Nat :=
  sidePieceOrder.foldl
    (fun acc sp => acc ^^^ xorBB (keys.piece sp.1 sp.2) (pieces sp.1 sp.2)) 0

/-- The value computed by `Board::init_zobrist_key`: key := 0, XOR in every
occupied (side, piece, square) key, then the castling key, the active-side
key and the en-passant key. -/
def init_zobrist_key_value (b : Board) : Nat :=
  scratchPieceXor b.zobrist_keys b.pieces
    ^^^ b.zobrist_keys.castling b.game_state.castling
    ^^^ b.zobrist_keys.side b.game_state.active_side
    ^^^ b.zobrist_keys.en_passant b.game_state.en_passant

/-- `Board::init_zobrist_key` (the mutating method). -/
def Board.init_zobrist_key (b : Board) : Board :=
  { b with game_state := { b.game_state with zobrist_key := init_zobrist_key_value b } }

/-- The incrementally maintained key agrees with a from-scratch
recomputation. -/
def keyConsistent (b : Board) : Prop :=
  b.game_state.zobrist_key = init_zobrist_key_value b

instance (b : Board) : Decidable (keyConsistent b) := by
  unfold keyConsistent
  infer_instance

lemma foldl_xor_acc {α : Type} (g : α → Nat) (l : List α) (a : Nat) :
    l.foldl (fun acc y => acc ^^^ g y) a = a ^^^ l.foldl (fun acc y => acc ^^^ g y) 0 := by
  induction l generalizing a with
  | nil => simp
  | cons y l ih =>
    rw [List.foldl_cons, List.foldl_cons, ih, ih (0 ^^^ g y)]
    simp [Nat.zero_xor, Nat.xor_assoc]

lemma foldl_xor_single {α : Type} [DecidableEq α] (l : List α) (f g : α → Nat) (x : α)
    (hcount : l.count x = 1) (hagree : ∀ y ∈ l, y ≠ x → f y = g y) :
    l.foldl (fun acc y => acc ^^^ g y) 0 =
      l.foldl (fun acc y => acc ^^^ f y) 0 ^^^ f x ^^^ g x := by
  induction l with
  | nil => simp at hcount
  | cons y l ih =>
    rcases eq_or_ne y x with rfl | hyx
    · have hx : y ∉ l := by
        rw [List.count_cons_self] at hcount
        exact List.count_eq_zero.1 (by omega)
      have hfg : l.foldl (fun acc z => acc ^^^ g z) 0 = l.foldl (fun acc z => acc ^^^ f z) 0 := by
        apply List.foldl_ext
        intro a z hz
        rw [hagree z (List.mem_cons_of_mem _ hz) (fun hzy => hx (hzy ▸ hz))]
      rw [List.foldl_cons, List.foldl_cons, foldl_xor_acc g l (0 ^^^ g y),
        foldl_xor_acc f l (0 ^^^ f y), hfg]
      simp [Nat.zero_xor, Nat.xor_assoc, Nat.xor_comm, xor_left_comm, Nat.xor_self,
        Nat.xor_zero, xor_cancel_left]
    · have hcount' : l.count x = 1 := by
        rwa [List.count_cons_of_ne (Ne.symm hyx)] at hcount
      have hagree' : ∀ z ∈ l, z ≠ x → f z = g z :=
        fun z hz hzz => hagree z (List.mem_cons_of_mem _ hz) hzz
      have hy : f y = g y := hagree y (List.mem_cons_self _ _) hyx
      rw [List.foldl_cons, List.foldl_cons, foldl_xor_acc g l (0 ^^^ g y),
        foldl_xor_acc f l (0 ^^^ f y), ih hcount' hagree', hy]
      simp [Nat.zero_xor, Nat.xor_assoc]

/-- Changing one (side, piece) slot of the piece table changes the scratch
piece XOR by the XOR of the old and new slot contributions. -/
lemma scratchPieceXor_update (keys : ZobristKeys) (pieces : Side → PieceKind → Nat)
    (s : Side) (p : PieceKind) (bb : Nat) :
    scratchPieceXor keys (Function.update pieces s (Function.update (pieces s) p bb)) =
      scratchPieceXor keys pieces
        ^^^ xorBB (keys.piece s p) (pieces s p) ^^^ xorBB (keys.piece s p) bb := by
  unfold scratchPieceXor
  have := foldl_xor_single sidePieceOrder
    (fun sp => xorBB (keys.piece sp.1 sp.2) (pieces sp.1 sp.2))
    (fun sp => xorBB (keys.piece sp.1 sp.2)
      (Function.update pieces s (Function.update (pieces s) p bb) sp.1 sp.2))
    (s, p) ?_ ?_
  · rw [this]
    simp [Function.update_same]
  · cases s <;> cases p <;> decide
  · rintro ⟨ys, yp⟩ _ hne
    rcases eq_or_ne ys s with rfl | hs
    · have hp : yp ≠ p := fun h => hne (by rw [h])
      simp [Function.update_same, Function.update_noteq hp]
    · simp [Function.update_noteq hs]

/-! ### `keyConsistent` is preserved by every primitive of `make_move` -/

lemma keyConsistent_history (b : Board) (l : List RecordedMove) (h : keyConsistent b) :
    keyConsistent { b with game_history := l } := h

lemma keyConsistent_hmc (b : Board) (x : Nat) (h : keyConsistent b) :
    keyConsistent { b with game_state := { b.game_state with half_move_clock := x } } := h

lemma keyConsistent_remove_piece (b : Board) (s : Side) (p : PieceKind) (sq : SquareIx)
    (h : keyConsistent b) : keyConsistent (b.remove_piece s p sq) := by
  unfold keyConsistent init_zobrist_key_value at h ⊢
  simp only [Board.remove_piece]
  rw [scratchPieceXor_update, xorBB_xor, h]
  simp [Nat.xor_assoc, Nat.xor_comm, xor_left_comm, Nat.xor_self, Nat.xor_zero,
    Nat.zero_xor, xor_cancel_left]

lemma keyConsistent_place_piece (b : Board) (s : Side) (p : PieceKind) (sq : SquareIx)
    (h : keyConsistent b) (hbit : (b.pieces s p).testBit sq.val = false) :
    keyConsistent (b.place_piece s p sq) := by
  unfold keyConsistent init_zobrist_key_value at h ⊢
  simp only [Board.place_piece]
  rw [scratchPieceXor_update, xorBB_or _ _ _ hbit, h]
  simp [Nat.xor_assoc, Nat.xor_comm, xor_left_comm, Nat.xor_self, Nat.xor_zero,
    Nat.zero_xor, xor_cancel_left]

lemma keyConsistent_move_piece (b : Board) (s : Side) (p : PieceKind) (a c : SquareIx)
    (h : keyConsistent b) (hne : a ≠ c) (hc : (b.pieces s p).testBit c.val = false) :
    keyConsistent (b.move_piece s p a c) := by
  unfold Board.move_piece
  apply keyConsistent_place_piece
  · exact keyConsistent_remove_piece b s p a h
  · simp only [remove_piece_pieces, Function.update_same]
    rw [testBit_xor_squareBB_ne (fun hv => hne (Fin.ext hv))]
    exact hc

lemma keyConsistent_set_castling_rights (b : Board) (r : Nat) (h : keyConsistent b) :
    keyConsistent (b.set_castling_rights r) := by
  unfold keyConsistent init_zobrist_key_value at h ⊢
  simp only [Board.set_castling_rights]
  rw [h]
  simp [Nat.xor_assoc, Nat.xor_comm, xor_left_comm, Nat.xor_self, Nat.xor_zero,
    Nat.zero_xor, xor_cancel_left]

lemma keyConsistent_clear_rights_square (b : Board) (sq : SquareIx)
    (h : keyConsistent b) : keyConsistent (b.clear_castling_rights_for_square sq) :=
  keyConsistent_set_castling_rights b _ h

lemma keyConsistent_clear_rights_side (b : Board) (s : Side)
    (h : keyConsistent b) : keyConsistent (b.clear_castling_rights_for_side s) :=
  keyConsistent_set_castling_rights b _ h

lemma keyConsistent_set_ep (b : Board) (sq : SquareIx) (h : keyConsistent b) :
    keyConsistent (b.set_ep_square sq) := by
  unfold keyConsistent init_zobrist_key_value at h ⊢
  simp only [Board.set_ep_square]
  rw [h]
  simp [Nat.xor_assoc, Nat.xor_comm, xor_left_comm, Nat.xor_self, Nat.xor_zero,
    Nat.zero_xor, xor_cancel_left]

lemma keyConsistent_clear_ep (b : Board) (h : keyConsistent b) :
    keyConsistent b.clear_ep_square := by
  unfold keyConsistent init_zobrist_key_value at h ⊢
  simp only [Board.clear_ep_square]
  rw [h]
  simp [Nat.xor_assoc, Nat.xor_comm, xor_left_comm, Nat.xor_self, Nat.xor_zero,
    Nat.zero_xor, xor_cancel_left]

lemma keyConsistent_switch (b : Board) (h : keyConsistent b) :
    keyConsistent b.switch_active_side := by
  unfold keyConsistent init_zobrist_key_value at h ⊢
  simp only [Board.switch_active_side]
  rw [h]
  simp [Nat.xor_assoc, Nat.xor_comm, xor_left_comm, Nat.xor_self, Nat.xor_zero,
    Nat.zero_xor, xor_cancel_left]

lemma keyConsistent_bump (b : Board) (h : keyConsistent b) :
    keyConsistent b.bump_full_move := by
  unfold Board.bump_full_move
  split
  · exact h
  · exact h

lemma keyConsistent_quiet_clock (b : Board) (m : ChessMove) (h : keyConsistent b) :
    keyConsistent (b.quiet_clock_castling m) := by
  unfold Board.quiet_clock_castling
  dsimp only
  split
  · split
    · exact keyConsistent_clear_rights_side _ _ h
    · exact keyConsistent_clear_rights_square _ _ h
    · exact h
  · exact h

lemma keyConsistent_capture_rook_rights (b : Board) (q : PieceKind) (sq : SquareIx)
    (h : keyConsistent b) : keyConsistent (b.capture_rook_rights q sq) := by
  unfold Board.capture_rook_rights
  split
  · exact keyConsistent_clear_rights_square _ _ h
  · exact h

lemma move_piece_active (b : Board) (s : Side) (p : PieceKind) (a c : SquareIx) :
    (b.move_piece s p a c).game_state.active_side = b.game_state.active_side := rfl

lemma move_piece_piece_list (b : Board) (s : Side) (p : PieceKind) (a c : SquareIx) :
    (b.move_piece s p a c).piece_list =
      Function.update (Function.update b.piece_list a none) c (some p) := rfl

/-! ### `keyConsistent` is preserved by each flavor of `make_move` -/

lemma key_make_quiet (b : Board) (m : ChessMove)
    (hfl : m.flags = ChessMoveFlags.QUIET) (hsh : QuietShape b m)
    (h : keyConsistent b) : keyConsistent (b.make_move m) := by
  obtain ⟨p, hpl, hbp, hbs, hplto, hbpto, hbsto, hne⟩ := hsh
  simp only [Board.get_active_side] at hbpto
  have hq : m.is_quiet = true := by
    simp [ChessMove.is_quiet, hfl, ChessMoveFlags.QUIET]
  simp only [Board.make_move, Board.make_move_dispatch, hq,
    quiet_clock_castling_piece_list, quiet_clock_castling_active, Board.get_active_side,
    hpl, Bool.or_self, if_true, if_false, Bool.false_eq_true, ite_true, ite_false]
  apply keyConsistent_switch
  apply keyConsistent_history
  apply keyConsistent_bump
  apply keyConsistent_clear_ep
  apply keyConsistent_move_piece
  · exact keyConsistent_quiet_clock b m h
  · exact hne
  · simp only [quiet_clock_castling_pieces]
    exact hbpto

lemma key_make_dpp (b : Board) (m : ChessMove)
    (hfl : m.flags = ChessMoveFlags.DOUBLE_PAWN_PUSH) (hsh : DppShape b m)
    (h : keyConsistent b) : keyConsistent (b.make_move m) := by
  obtain ⟨⟨p, hpl, hbp, hbs, hplto, hbpto, hbsto, hne⟩, hW, hB⟩ := hsh
  simp only [Board.get_active_side] at hbpto hW hB
  have hq : m.is_quiet = false := by
    simp [ChessMove.is_quiet, hfl, ChessMoveFlags.QUIET, ChessMoveFlags.DOUBLE_PAWN_PUSH]
  have hd : m.is_double_pawn_push = true := by
    simp [ChessMove.is_double_pawn_push, hfl, ChessMoveFlags.DOUBLE_PAWN_PUSH]
  cases hside : b.game_state.active_side with
  | White =>
    have h8 : 8 ≤ m.toSq.val := hW hside
    rw [hside] at hbpto
    simp only [Board.make_move, Board.make_move_dispatch, hq, hd, hpl, hside,
      Board.get_active_side, move_piece_active, dif_pos h8,
      Bool.or_self, if_true, if_false, Bool.false_eq_true, ite_true, ite_false]
    apply keyConsistent_switch
    apply keyConsistent_history
    apply keyConsistent_bump
    apply keyConsistent_hmc
    apply keyConsistent_set_ep
    apply keyConsistent_move_piece
    · exact h
    · exact hne
    · exact hbpto
  | Black =>
    have h64 : m.toSq.val + 8 < 64 := hB hside
    rw [hside] at hbpto
    simp only [Board.make_move, Board.make_move_dispatch, hq, hd, hpl, hside,
      Board.get_active_side, move_piece_active, dif_pos h64,
      Bool.or_self, if_true, if_false, Bool.false_eq_true, ite_true, ite_false]
    apply keyConsistent_switch
    apply keyConsistent_history
    apply keyConsistent_bump
    apply keyConsistent_hmc
    apply keyConsistent_set_ep
    apply keyConsistent_move_piece
    · exact h
    · exact hne
    · exact hbpto

lemma key_make_castle (b : Board) (m : ChessMove)
    (hfl : m.flags = ChessMoveFlags.KING_CASTLE ∨ m.flags = ChessMoveFlags.QUEEN_CASTLE)
    (hsh : CastleShape b m) (h : keyConsistent b) : keyConsistent (b.make_move m) := by
  obtain ⟨rp, rd, hrs, hplk, hbpk, hbsk, hplr, hbpr, hbsr, hplt, hbpkt, hbskt,
    hplrd, hbprd, hbsrd, hneft, hnefrp, hnefrd, hnetrp, hnetrd, hnerprd⟩ := hsh
  simp only [Board.get_active_side] at hbpkt hbprd
  have nrpf : ¬(rp = m.fromSq) := fun hh => hnefrp hh.symm
  have nrpt : ¬(rp = m.toSq) := fun hh => hnetrp hh.symm
  have hRK : PieceKind.Rook ≠ PieceKind.King := by decide
  have hrook : ((b.move_piece b.game_state.active_side PieceKind.King m.fromSq
      m.toSq).pieces b.game_state.active_side PieceKind.Rook).testBit rd.val = false := by
    simp only [Board.move_piece, place_piece_pieces, remove_piece_pieces,
      Function.update_same]
    rw [Function.update_noteq hRK, Function.update_noteq hRK]
    exact hbprd
  rcases hfl with hfl | hfl
  · have hq : m.is_quiet = false := by
      simp [ChessMove.is_quiet, hfl, ChessMoveFlags.QUIET, ChessMoveFlags.KING_CASTLE]
    have hd : m.is_double_pawn_push = false := by
      simp [ChessMove.is_double_pawn_push, hfl, ChessMoveFlags.DOUBLE_PAWN_PUSH,
        ChessMoveFlags.KING_CASTLE]
    have hkc : m.is_king_castling = true := by
      simp [ChessMove.is_king_castling, hfl, ChessMoveFlags.KING_CASTLE]
    have hqc : m.is_queen_castling = false := by
      simp [ChessMove.is_queen_castling, hfl, ChessMoveFlags.KING_CASTLE,
        ChessMoveFlags.QUEEN_CASTLE]
    simp only [Board.make_move, Board.make_move_dispatch, hq, hd, hkc, hqc, hrs,
      Board.get_active_side, move_piece_active, move_piece_piece_list,
      Function.update_apply, nrpf, nrpt, hplk, hplr, eq_self_iff_true,
      Bool.or_self, Bool.or_true, Bool.true_or, Bool.or_false, Bool.false_or,
      if_true, if_false, Bool.false_eq_true, ite_true, ite_false]
    apply keyConsistent_switch
    apply keyConsistent_history
    apply keyConsistent_bump
    apply keyConsistent_clear_ep
    apply keyConsistent_hmc
    apply keyConsistent_clear_rights_side
    apply keyConsistent_move_piece
    · apply keyConsistent_move_piece
      · exact h
      · exact hneft
      · exact hbpkt
    · exact hnerprd
    · exact hrook
  · have hq : m.is_quiet = false := by
      simp [ChessMove.is_quiet, hfl, ChessMoveFlags.QUIET, ChessMoveFlags.QUEEN_CASTLE]
    have hd : m.is_double_pawn_push = false := by
      simp [ChessMove.is_double_pawn_push, hfl, ChessMoveFlags.DOUBLE_PAWN_PUSH,
        ChessMoveFlags.QUEEN_CASTLE]
    have hkc : m.is_king_castling = false := by
      simp [ChessMove.is_king_castling, hfl, ChessMoveFlags.KING_CASTLE,
        ChessMoveFlags.QUEEN_CASTLE]
    have hqc : m.is_queen_castling = true := by
      simp [ChessMove.is_queen_castling, hfl, ChessMoveFlags.QUEEN_CASTLE]
    simp only [Board.make_move, Board.make_move_dispatch, hq, hd, hkc, hqc, hrs,
      Board.get_active_side, move_piece_active, move_piece_piece_list,
      Function.update_apply, nrpf, nrpt, hplk, hplr, eq_self_iff_true,
      Bool.or_self, Bool.or_true, Bool.true_or, Bool.or_false, Bool.false_or,
      if_true, if_false, Bool.false_eq_true, ite_true, ite_false]
    apply keyConsistent_switch
    apply keyConsistent_history
    apply keyConsistent_bump
    apply keyConsistent_clear_ep
    apply keyConsistent_hmc
    apply keyConsistent_clear_rights_side
    apply keyConsistent_move_piece
    · apply keyConsistent_move_piece
      · exact h
      · exact hneft
      · exact hbpkt
    · exact hnerprd
    · exact hrook

lemma key_make_capture (b : Board) (m : ChessMove)
    (hfl : m.flags = ChessMoveFlags.CAPTURE) (hsh : CaptureShape b m)
    (h : keyConsistent b) : keyConsistent (b.make_move m) := by
  obtain ⟨p, q, hplf, hplt, hbp, hbs, hbq, hbsq, hbpto, hbsto, hne⟩ := hsh
  simp only [Board.get_active_side, Board.get_opponent] at hbpto
  have hq : m.is_quiet = false := by
    simp [ChessMove.is_quiet, hfl, ChessMoveFlags.QUIET, ChessMoveFlags.CAPTURE]
  have hd : m.is_double_pawn_push = false := by
    simp [ChessMove.is_double_pawn_push, hfl, ChessMoveFlags.DOUBLE_PAWN_PUSH,
      ChessMoveFlags.CAPTURE]
  have hcap : m.is_capture = true := by
    simp [ChessMove.is_capture, hfl, ChessMoveFlags.CAPTURE]
  have hep : m.is_en_passant = false := by
    simp [ChessMove.is_en_passant, hfl, ChessMoveFlags.EN_PASSANT, ChessMoveFlags.CAPTURE]
  have hpr : m.is_promotion = false := by
    simp [ChessMove.is_promotion, hfl, ChessMoveFlags.CAPTURE, ChessMoveFlags.PROMOTION]
  have hkc : m.is_king_castling = false := by
    simp [ChessMove.is_king_castling, hfl, ChessMoveFlags.CAPTURE, ChessMoveFlags.KING_CASTLE]
  have hqc : m.is_queen_castling = false := by
    simp [ChessMove.is_queen_castling, hfl, ChessMoveFlags.CAPTURE, ChessMoveFlags.QUEEN_CASTLE]
  have hnef : ¬(m.fromSq = m.toSq) := hne
  simp only [Board.make_move, Board.make_move_dispatch, hq, hd, hcap, hep, hpr, hkc, hqc,
    Board.get_opponent, Board.get_active_side,
    capture_rook_rights_piece_list, capture_rook_rights_active,
    remove_piece_piece_list, remove_piece_active,
    Function.update_apply, hnef, hplf, hplt, eq_self_iff_true,
    Bool.or_self, if_true, if_false, Bool.false_eq_true, ite_true, ite_false]
  apply keyConsistent_switch
  apply keyConsistent_history
  apply keyConsistent_bump
  apply keyConsistent_clear_ep
  apply keyConsistent_hmc
  apply keyConsistent_move_piece
  · apply keyConsistent_capture_rook_rights
    exact keyConsistent_remove_piece _ _ _ _ h
  · exact hne
  · simp only [capture_rook_rights_pieces, remove_piece_pieces]
    rw [Function.update_noteq (side_ne_other b.game_state.active_side)]
    exact hbpto

lemma key_make_ep (b : Board) (m : ChessMove)
    (hfl : m.flags = ChessMoveFlags.EN_PASSANT ||| ChessMoveFlags.CAPTURE)
    (hsh : EpShape b m) (h : keyConsistent b) : keyConsistent (b.make_move m) := by
  obtain ⟨p, q, c, hepsq, hgeo, hplf, hbp, hbs, hplc, hbqc, hbsqc, hplto,
    hbpto, hbsto, hne, hcf, hct⟩ := hsh
  simp only [Board.get_active_side] at hbpto hgeo
  have hq : m.is_quiet = false := by
    simp [ChessMove.is_quiet, hfl, ChessMoveFlags.QUIET, ChessMoveFlags.EN_PASSANT,
      ChessMoveFlags.CAPTURE]
  have hd : m.is_double_pawn_push = false := by
    simp [ChessMove.is_double_pawn_push, hfl, ChessMoveFlags.DOUBLE_PAWN_PUSH,
      ChessMoveFlags.EN_PASSANT, ChessMoveFlags.CAPTURE]
  have hcap : m.is_capture = true := by
    simp only [ChessMove.is_capture, hfl, ChessMoveFlags.EN_PASSANT, ChessMoveFlags.CAPTURE]
    decide
  have hepf : m.is_en_passant = true := by
    simp only [ChessMove.is_en_passant, hfl, ChessMoveFlags.EN_PASSANT, ChessMoveFlags.CAPTURE]
    decide
  have hpr : m.is_promotion = false := by
    simp [ChessMove.is_promotion, hfl, ChessMoveFlags.EN_PASSANT, ChessMoveFlags.CAPTURE,
      ChessMoveFlags.PROMOTION]
  have hkc : m.is_king_castling = false := by
    simp [ChessMove.is_king_castling, hfl, ChessMoveFlags.EN_PASSANT, ChessMoveFlags.CAPTURE,
      ChessMoveFlags.KING_CASTLE]
  have hqc : m.is_queen_castling = false := by
    simp [ChessMove.is_queen_castling, hfl, ChessMoveFlags.EN_PASSANT, ChessMoveFlags.CAPTURE,
      ChessMoveFlags.QUEEN_CASTLE]
  rcases hgeo with ⟨hside, h8, hcval⟩ | ⟨hside, h64, hcval⟩
  · rw [hside] at hbpto
    have hltW : m.toSq.val - 8 < 64 := by omega
    have hepv := Board.epVictimSquare_white m.toSq.val h8 hltW
    have hc : (⟨m.toSq.val - 8, hltW⟩ : SquareIx) = c := Fin.ext (by rw [hcval])
    rw [hc] at hepv
    have hfc : ¬(m.fromSq = c) := fun hh => hcf hh.symm
    simp only [Board.make_move, Board.make_move_dispatch, hq, hd, hcap, hepf, hpr, hkc, hqc,
      Board.get_opponent, Board.get_active_side, hside, Side.other, hepsq, hepv,
      remove_piece_piece_list, remove_piece_active,
      Function.update_apply, hfc, hplc, hplf, eq_self_iff_true,
      Bool.or_self, if_true, if_false, Bool.false_eq_true, ite_true, ite_false]
    apply keyConsistent_switch
    apply keyConsistent_history
    apply keyConsistent_bump
    apply keyConsistent_clear_ep
    apply keyConsistent_hmc
    apply keyConsistent_move_piece
    · exact keyConsistent_remove_piece _ _ _ _ h
    · exact hne
    · simp only [remove_piece_pieces]
      rw [Function.update_noteq (by decide : Side.White ≠ Side.Black)]
      exact hbpto
  · rw [hside] at hbpto
    have hepv := Board.epVictimSquare_black m.toSq.val h64
    have hc : (⟨m.toSq.val + 8, h64⟩ : SquareIx) = c := Fin.ext (by rw [hcval])
    rw [hc] at hepv
    have hfc : ¬(m.fromSq = c) := fun hh => hcf hh.symm
    simp only [Board.make_move, Board.make_move_dispatch, hq, hd, hcap, hepf, hpr, hkc, hqc,
      Board.get_opponent, Board.get_active_side, hside, Side.other, hepsq, hepv,
      remove_piece_piece_list, remove_piece_active,
      Function.update_apply, hfc, hplc, hplf, eq_self_iff_true,
      Bool.or_self, if_true, if_false, Bool.false_eq_true, ite_true, ite_false]
    apply keyConsistent_switch
    apply keyConsistent_history
    apply keyConsistent_bump
    apply keyConsistent_clear_ep
    apply keyConsistent_hmc
    apply keyConsistent_move_piece
    · exact keyConsistent_remove_piece _ _ _ _ h
    · exact hne
    · simp only [remove_piece_pieces]
      rw [Function.update_noteq (by decide : Side.Black ≠ Side.White)]
      exact hbpto

lemma key_make_promocap (b : Board) (m : ChessMove)
    (hfl : m.flags = ChessMoveFlags.PROMOTION ||| ChessMoveFlags.CAPTURE)
    (hsh : PromoCapShape b m) (h : keyConsistent b) : keyConsistent (b.make_move m) := by
  obtain ⟨pp, q, hpp, hplf, hbp, hbs, hplt, hbq, hbsq, hbppt, hbsto, hne⟩ := hsh
  simp only [Board.get_active_side, Board.get_opponent] at hbppt
  have hos : ¬(b.game_state.active_side = b.game_state.active_side.other) :=
    side_ne_other _
  have hq : m.is_quiet = false := by
    simp [ChessMove.is_quiet, hfl, ChessMoveFlags.QUIET, ChessMoveFlags.PROMOTION,
      ChessMoveFlags.CAPTURE]
  have hd : m.is_double_pawn_push = false := by
    simp [ChessMove.is_double_pawn_push, hfl, ChessMoveFlags.DOUBLE_PAWN_PUSH,
      ChessMoveFlags.PROMOTION, ChessMoveFlags.CAPTURE]
  have hcap : m.is_capture = true := by
    simp only [ChessMove.is_capture, hfl, ChessMoveFlags.PROMOTION, ChessMoveFlags.CAPTURE]
    decide
  have hep : m.is_en_passant = false := by
    simp only [ChessMove.is_en_passant, hfl, ChessMoveFlags.EN_PASSANT,
      ChessMoveFlags.PROMOTION, ChessMoveFlags.CAPTURE]
    decide
  have hpr : m.is_promotion = true := by
    simp only [ChessMove.is_promotion, hfl, ChessMoveFlags.PROMOTION, ChessMoveFlags.CAPTURE]
    decide
  have hkc : m.is_king_castling = false := by
    simp [ChessMove.is_king_castling, hfl, ChessMoveFlags.PROMOTION, ChessMoveFlags.CAPTURE,
      ChessMoveFlags.KING_CASTLE]
  have hqc : m.is_queen_castling = false := by
    simp [ChessMove.is_queen_castling, hfl, ChessMoveFlags.PROMOTION, ChessMoveFlags.CAPTURE,
      ChessMoveFlags.QUEEN_CASTLE]
  have hnef : ¬(m.fromSq = m.toSq) := hne
  have hfv : m.fromSq.val ≠ m.toSq.val := fun hv => hne (Fin.ext hv)
  simp only [Board.make_move, Board.make_move_dispatch, hq, hd, hcap, hep, hpr, hkc, hqc,
    Board.get_opponent, Board.get_active_side,
    capture_rook_rights_piece_list, capture_rook_rights_active,
    remove_piece_piece_list, remove_piece_active,
    Function.update_apply, hnef, hplf, hplt, hpp, eq_self_iff_true,
    Bool.or_self, if_true, if_false, Bool.false_eq_true, ite_true, ite_false]
  apply keyConsistent_switch
  apply keyConsistent_history
  apply keyConsistent_bump
  apply keyConsistent_clear_ep
  apply keyConsistent_hmc
  apply keyConsistent_place_piece
  · apply keyConsistent_remove_piece
    apply keyConsistent_capture_rook_rights
    exact keyConsistent_remove_piece _ _ _ _ h
  · by_cases hppw : pp = PieceKind.Pawn
    · subst hppw
      simp only [remove_piece_pieces, capture_rook_rights_pieces,
        Function.update_apply, eq_self_iff_true, hos,
        if_true, if_false, ite_true, ite_false]
      rw [testBit_xor_squareBB_ne hfv]
      exact hbppt
    · have hppw' : ¬(pp = PieceKind.Pawn) := hppw
      simp only [remove_piece_pieces, capture_rook_rights_pieces,
        Function.update_apply, eq_self_iff_true, hos, hppw',
        if_true, if_false, ite_true, ite_false]
      exact hbppt

lemma key_make_promo (b : Board) (m : ChessMove)
    (hfl : m.flags = ChessMoveFlags.PROMOTION) (hsh : PromoShape b m)
    (h : keyConsistent b) : keyConsistent (b.make_move m) := by
  obtain ⟨pp, hpp, hplf, hbp, hbs, hplt, hbppt, hbsto, hne⟩ := hsh
  simp only [Board.get_active_side] at hbppt
  have hq : m.is_quiet = false := by
    simp [ChessMove.is_quiet, hfl, ChessMoveFlags.QUIET, ChessMoveFlags.PROMOTION]
  have hd : m.is_double_pawn_push = false := by
    simp [ChessMove.is_double_pawn_push, hfl, ChessMoveFlags.DOUBLE_PAWN_PUSH,
      ChessMoveFlags.PROMOTION]
  have hcap : m.is_capture = false := by
    simp [ChessMove.is_capture, hfl, ChessMoveFlags.CAPTURE, ChessMoveFlags.PROMOTION]
  have hpr : m.is_promotion = true := by
    simp [ChessMove.is_promotion, hfl, ChessMoveFlags.PROMOTION]
  have hkc : m.is_king_castling = false := by
    simp [ChessMove.is_king_castling, hfl, ChessMoveFlags.PROMOTION, ChessMoveFlags.KING_CASTLE]
  have hqc : m.is_queen_castling = false := by
    simp [ChessMove.is_queen_castling, hfl, ChessMoveFlags.PROMOTION,
      ChessMoveFlags.QUEEN_CASTLE]
  have hfv : m.fromSq.val ≠ m.toSq.val := fun hv => hne (Fin.ext hv)
  simp only [Board.make_move, Board.make_move_dispatch, hq, hd, hcap, hpr, hkc, hqc,
    Board.get_active_side, remove_piece_active, hplf, hpp,
    Bool.or_self, if_true, if_false, Bool.false_eq_true, ite_true, ite_false]
  apply keyConsistent_switch
  apply keyConsistent_history
  apply keyConsistent_bump
  apply keyConsistent_clear_ep
  apply keyConsistent_hmc
  apply keyConsistent_place_piece
  · exact keyConsistent_remove_piece _ _ _ _ h
  · by_cases hppw : pp = PieceKind.Pawn
    · subst hppw
      simp only [remove_piece_pieces, Function.update_apply, eq_self_iff_true,
        if_true, if_false, ite_true, ite_false]
      rw [testBit_xor_squareBB_ne hfv]
      exact hbppt
    · have hppw' : ¬(pp = PieceKind.Pawn) := hppw
      simp only [remove_piece_pieces, Function.update_apply, eq_self_iff_true, hppw',
        if_true, if_false, ite_true, ite_false]
      exact hbppt

/-- C2: zobrist consistency.  If the board's incrementally maintained
`game_state.zobrist_key` equals the from-scratch recomputation performed by
`Board::init_zobrist_key` (the XOR over all occupied side/piece/square piece
keys, the castling-mask key, the active-side key, and the en-passant key),
then after `make_move` on any structurally sound move the incrementally
updated key again equals the from-scratch recomputation on the new board. -/
theorem zobrist_key_consistency (b : Board) (m : ChessMove)
    (hm : MoveOk b m) (h : keyConsistent b) : keyConsistent (b.make_move m) := by
  rcases hm with ⟨hfl, hsh⟩ | ⟨hfl, hsh⟩ | ⟨hfl, hsh⟩ | ⟨hfl, hsh⟩ | ⟨hfl, hsh⟩ |
    ⟨hfl, hsh⟩ | ⟨hfl, hsh⟩
  · exact key_make_quiet b m hfl hsh h
  · exact key_make_dpp b m hfl hsh h
  · exact key_make_castle b m hfl hsh h
  · exact key_make_capture b m hfl hsh h
  · exact key_make_ep b m hfl hsh h
  · exact key_make_promocap b m hfl hsh h
  · exact key_make_promo b m hfl hsh h

/-- Witness for C2: on the all-zero-key knight board the knight move is
`MoveOk`, the key is consistent before the move, and stays consistent
after it. -/
theorem zobrist_key_consistency_witness :
    MoveOk knightBoard knightMove ∧ keyConsistent knightBoard ∧
      keyConsistent (knightBoard.make_move knightMove) :=
  ⟨by decide, by decide,
    zobrist_key_consistency knightBoard knightMove (by decide) (by decide)⟩

/-! ### Transposition table (`transposition_table.rs`)

Scores are `f32` in the source; the engine only ever negates and compares
them, so they are embedded exactly as rationals. -/

/-- `Bound` of `transposition_table.rs`. -/
inductive Bound where
  | Exact : Bound
  | LowerBound : Bound
  | UpperBound : Bound
deriving DecidableEq, Repr

/-- `TranspositionTableEntry`. -/
structure TranspositionTableEntry where
  zobrist : Nat
  depth : Nat
  score : ℚ
  flag : Bound
  best_move : Option ChessMove

/-- `TranspositionTable`: the entry vector and the power-of-two index mask. -/
structure TranspositionTable where
  entries : List (Option TranspositionTableEntry)
  mask : Nat

namespace TranspositionTable

/-- `TranspositionTable::new`. -/
def new (size_bits : Nat) : TranspositionTable :=
  { entries := List.replicate (1 <<< size_bits) none
    mask := (1 <<< size_bits) - 1 }

/-- `TranspositionTable::index`. -/
def index (t : TranspositionTable) (zobrist : Nat) : Nat :=
  zobrist &&& t.mask

/-- The slot `self.entries[idx]` read by `retrieve` (the source's vector
indexing panics out of bounds; embedded as an empty slot, which cannot occur
on a table built by `new`). -/
def slot (t : TranspositionTable) (zobrist : Nat) : Option TranspositionTableEntry :=
  (t.entries.get? (t.index zobrist)).getD none

/-- `TranspositionTable::store`. -/
def store (t : TranspositionTable) (zobrist : Nat) (entry : TranspositionTableEntry) :
    TranspositionTable :=
  let idx := t.index zobrist
  let replace :=
    match t.slot zobrist with
    | none => true
    | some existing => existing.depth ≤ entry.depth
  if replace then { t with entries := t.entries.set idx (some entry) } else t

/-- `TranspositionTable::retrieve`. -/
def retrieve (t : TranspositionTable) (zobrist : Nat) :
    Option TranspositionTableEntry :=
  (t.slot zobrist).filter (fun e => e.zobrist == zobrist)

end TranspositionTable

/-! ### Move sorter (`move_sorter.rs`) -/

/-- The `piece_scores` table of `MoveSorter::new`. -/
def pieceScore : PieceKind → Int
  | PieceKind.Pawn => 100
  | PieceKind.Knight => 300
  | PieceKind.Bishop => 325
  | PieceKind.Rook => 500
  | PieceKind.Queen => 900
  | PieceKind.King => 5000

/-- The `mvv_lva_scores` lookup of `MoveSorter::sort_moves`, including its
`unwrap_or(0)`: `MoveSorter::new` fills the map with exactly the pairs of the
six real pieces (score `victim * 10 - attacker`), so a lookup whose attacker
or victim slot is `Piece::None` misses the map and falls back to 0. -/
def mvvLvaScore (attacker victim : Option PieceKind) : Int :=
  match attacker, victim with
  | some a, some v => pieceScore v * 10 - pieceScore a
  | _, _ => 0

/-- The per-move scoring closure of `MoveSorter::sort_moves`
(`mv.promotion.unwrap()` on a promotion move without a promotion piece panics
in the source; embedded as 0). -/
def scoreMove (b : Board) (mv : ChessMove) : Int :=
  if mv.is_checkmate then 100000
  else if mv.is_capture then
    mvvLvaScore (b.piece_list mv.fromSq) (b.piece_list mv.toSq)
  else if mv.is_promotion then
    match mv.promotion with
    | some piece => pieceScore piece
    | none => 0
  else if mv.is_check then 500
  else 0

/-- The `scored_moves` vector built by `MoveSorter::sort_moves` before the
descending sort. -/
def scoredMoves (b : Board) (moves : List ChessMove) : List (ChessMove × Int) :=
  moves.map (fun mv => (mv, scoreMove b mv))

/-- A position with an en-passant capture available: white pawn on A5
(square 32), black pawn on B5 (square 33), en-passant square B6 (41). -/
def epBoard : Board :=
  { sides := fun s => match s with | Side.White => 2 ^ 32 | Side.Black => 2 ^ 33
    pieces := fun s p =>
      match s, p with
      | Side.White, PieceKind.Pawn => 2 ^ 32
      | Side.Black, PieceKind.Pawn => 2 ^ 33
      | _, _ => 0
    piece_list := fun sq =>
      if sq.val = 32 ∨ sq.val = 33 then some PieceKind.Pawn else none
    game_state := { GameState.new with en_passant := some 41 }
    game_history := []
    zobrist_keys := zeroKeys }

/-- The en-passant capture A5 × B6 on `epBoard`. -/
def epMove : ChessMove := ChessMove.en_passant ⟨32, by omega⟩ ⟨41, by omega⟩

/-- C5 counterexample: a structurally sound en-passant capture by a pawn is
scored 0 by `sort_moves`, not the claimed 900: the victim lookup
`board.piece_list[mv.to]` reads the empty destination square, so the
MVV-LVA map lookup misses and `unwrap_or(0)` applies. -/
theorem ep_capture_score_counterexample :
    epMove.is_capture = true ∧ epMove.is_en_passant = true ∧
      epBoard.piece_list epMove.fromSq = some PieceKind.Pawn ∧
      MoveOk epBoard epMove ∧
      scoreMove epBoard epMove = 0 ∧ scoreMove epBoard epMove ≠ 900 := by
  refine ⟨by decide, by decide, by decide, by decide, by decide, by decide⟩

/-- C5 (amended): `sort_moves` scores a non-checkmate capture move by the
MVV-LVA table `10 * value(victim) - value(attacker)` over the piece values
{P:100, N:300, B:325, R:500, Q:900, K:5000} read from `piece_list` at the
move's squares; when the victim slot is empty — as it is for every
en-passant capture, whose destination square is empty — the lookup falls
back to score 0. -/
theorem sort_moves_capture_score (b : Board) (moves : List ChessMove)
    (mv : ChessMove) (hmem : mv ∈ moves) (hcm : mv.is_checkmate = false)
    (hcap : mv.is_capture = true) :
    (∀ a v, b.piece_list mv.fromSq = some a → b.piece_list mv.toSq = some v →
      (mv, 10 * pieceScore v - pieceScore a) ∈ scoredMoves b moves) ∧
    (b.piece_list mv.toSq = none → (mv, 0) ∈ scoredMoves b moves) := by
  constructor
  · intro a v ha hv
    have hsc : scoreMove b mv = 10 * pieceScore v - pieceScore a := by
      unfold scoreMove
      rw [hcm, hcap]
      simp [mvvLvaScore, ha, hv, Int.mul_comm]
    exact hsc ▸ List.mem_map_of_mem (fun m => (m, scoreMove b m)) hmem
  · intro hv
    have hsc : scoreMove b mv = 0 := by
      unfold scoreMove
      rw [hcm, hcap]
      cases b.piece_list mv.fromSq <;> simp [mvvLvaScore, hv]
    exact hsc ▸ List.mem_map_of_mem (fun m => (m, scoreMove b m)) hmem

/-- Witness for C5 (amended): the en-passant capture on `epBoard`, passed to
the sorter in a one-move list, is scored 0. -/
theorem sort_moves_capture_score_witness :
    epMove ∈ [epMove] ∧ epMove.is_checkmate = false ∧ epMove.is_capture = true ∧
      epBoard.piece_list epMove.toSq = none ∧
      (epMove, 0) ∈ scoredMoves epBoard [epMove] :=
  ⟨by decide, by decide, by decide, by decide,
    (sort_moves_capture_score epBoard [epMove] epMove (by decide) (by decide)
      (by decide)).2 (by decide)⟩

/-- C8: `retrieve` returns an entry exactly when the slot at index
`zobrist &&& mask` holds an entry whose stored `zobrist` equals the queried
key; a slot holding an entry with a different key yields `None` (collisions
are dropped, there is no chaining). -/
theorem tt_retrieve_iff (t : TranspositionTable) (z : Nat)
    (e : TranspositionTableEntry) :
    t.retrieve z = some e ↔ t.slot z = some e ∧ e.zobrist = z := by
  unfold TranspositionTable.retrieve
  cases hs : t.slot z with
  | none => simp [Option.filter]
  | some e0 =>
    simp only [Option.filter]
    by_cases hz : e0.zobrist = z
    · simp [hz]
      rintro rfl
      exact hz
    · simp [hz]
      rintro rfl
      exact fun h => hz h

/-! ### Insufficient-material draw (`board.rs`) -/

/-- `u64::count_ones`. -/
def countOnes (n : Nat) : Nat :=
  if h : n = 0 then 0 else n % 2 + countOnes (n / 2)
decreasing_by exact Nat.div_lt_self (Nat.pos_of_ne_zero h) (by omega)

/-- `u64::trailing_zeros` (64 on 0, as for `u64`). -/
def trailingZeros (n : Nat) : Nat :=
  if h : n = 0 then 64
  else if n % 2 = 1 then 0
  else 1 + trailingZeros (n / 2)
decreasing_by exact Nat.div_lt_self (Nat.pos_of_ne_zero h) (by omega)

/-- `Board::draw_by_insufficient_material`. -/
def Board.draw_by_insufficient_material (b : Board) : Bool :=
  let white := b.pieces Side.White
  let black := b.pieces Side.Black
  let has_mating_material :=
    (white PieceKind.Queen != 0) || (white PieceKind.Rook != 0) ||
    (white PieceKind.Pawn != 0) || (black PieceKind.Queen != 0) ||
    (black PieceKind.Rook != 0) || (black PieceKind.Pawn != 0)
  if has_mating_material then false
  else
    let kk := (white PieceKind.Bishop == 0) && (white PieceKind.Knight == 0) &&
      (black PieceKind.Bishop == 0) && (black PieceKind.Knight == 0)
    let kbk := (countOnes (white PieceKind.Bishop) == 1) && (white PieceKind.Knight == 0) &&
      (black PieceKind.Bishop == 0) && (black PieceKind.Knight == 0)
    let knk := (white PieceKind.Bishop == 0) && (countOnes (white PieceKind.Knight) == 1) &&
      (black PieceKind.Bishop == 0) && (black PieceKind.Knight == 0)
    let kkb := (white PieceKind.Bishop == 0) && (white PieceKind.Knight == 0) &&
      (countOnes (black PieceKind.Bishop) == 1) && (black PieceKind.Knight == 0)
    let kkn := (white PieceKind.Bishop == 0) && (white PieceKind.Knight == 0) &&
      (black PieceKind.Bishop == 0) && (countOnes (black PieceKind.Knight) == 1)
    let kbkb := (countOnes (white PieceKind.Bishop) == 1) && (white PieceKind.Knight == 0) &&
      (countOnes (black PieceKind.Bishop) == 1) && (black PieceKind.Knight == 0)
    let same_color_sq :=
      if kbkb then
        let white_bishop_square := trailingZeros (white PieceKind.Bishop)
        let black_bishop_square := trailingZeros (black PieceKind.Bishop)
        let white_bishop_color := (white_bishop_square / 8 + white_bishop_square % 8) % 2
        let black_bishop_color := (black_bishop_square / 8 + black_bishop_square % 8) % 2
        white_bishop_color == black_bishop_color
      else false
    if kk || kbk || knk || kkb || kkn || (kbkb && same_color_sq) then true else false

/-! ### Searcher (`searcher.rs`)

The evaluator trait object and the move generator are abstracted as function
parameters `evaluate` and `gen`.  `f32` scores are embedded as rationals: the
searcher only negates and compares scores, both exact on the `f32` values the
source produces. -/

/-- `MAX_POSITION_SCORE` of `definitions.rs`. -/
def MAX_POSITION_SCORE : ℚ := 100000

/-- `MIN_POSITION_SCORE` of `definitions.rs`. -/
def MIN_POSITION_SCORE : ℚ := -100000

/-- `SearchResult` of `searcher.rs`. -/
structure SearchResult where
  best_move : Option ChessMove
  score : ℚ
deriving DecidableEq

/-- The transposition-table probe at the top of `Searcher::search_move`:
`some r` when one of the three early `return`s fires. -/
def ttProbe (tt : TranspositionTable) (zobrist : Nat) (depth : Nat)
    (alpha beta : ℚ) : Option SearchResult :=
  match tt.retrieve zobrist with
  | some entry =>
    if depth ≤ entry.depth then
      match entry.flag with
      | Bound.Exact => some ⟨entry.best_move, entry.score⟩
      | Bound.LowerBound =>
        if beta ≤ entry.score then some ⟨entry.best_move, entry.score⟩ else none
      | Bound.UpperBound =>
        if entry.score ≤ alpha then some ⟨entry.best_move, entry.score⟩ else none
    else none
  | none => none

/-- The "last move was checkmate" early return of `Searcher::search_move`:
`game_history.get_ref(len - 1)` is the newest entry (the head of the
embedded history list). -/
def mateGate (b : Board) : Option SearchResult :=
  match b.game_history with
  | [] => none
  | last_move :: _ =>
    if last_move.mv.is_checkmate then
      some (match b.get_active_side with
            | Side.White => ⟨none, MIN_POSITION_SCORE⟩
            | Side.Black => ⟨none, MAX_POSITION_SCORE⟩)
    else none

/-- The early returns of `Searcher::search_move` before the `depth == 0`
check, in source order: transposition probe, draw checks, mate gate. -/
def searchPreGate (tt : TranspositionTable) (b : Board) (depth : Nat)
    (alpha beta : ℚ) : Option SearchResult :=
  match ttProbe tt b.game_state.zobrist_key depth alpha beta with
  | some r => some r
  | none =>
    if b.draw_by_fifty_move_rule || b.draw_by_threefold_repetition ||
        b.draw_by_insufficient_material then
      some ⟨none, 0⟩
    else mateGate b

/-- The loop state leaving the `for mv in moves` loop of
`Searcher::search_move`: `early` is set by the in-loop checkmate `return`
(which skips the table store); otherwise the loop ran to its end or `break`. -/
structure LoopOut where
  early : Option SearchResult
  best : SearchResult
  alphaOut : ℚ
  tt : TranspositionTable
  board : Board

/-- The `for mv in moves` loop of `Searcher::search_move`, with the
recursive call abstracted as `recur`.  The `&mut Board` is threaded
explicitly: `make_move`, the recursive call, and `undo_move` each hand the
board on. -/
def searchLoop
    (recur : TranspositionTable → Board → ℚ → ℚ →
      SearchResult × TranspositionTable × Board) :
    List ChessMove → TranspositionTable → Board → ℚ → ℚ → SearchResult → LoopOut
  | [], tt, b, alpha, _, best => ⟨none, best, alpha, tt, b⟩
  | mv :: rest, tt, b, alpha, beta, best =>
    if mv.is_checkmate then
      ⟨some (match b.get_active_side with
             | Side.White => ⟨some mv, MAX_POSITION_SCORE⟩
             | Side.Black => ⟨some mv, MIN_POSITION_SCORE⟩),
        best, alpha, tt, b⟩
    else
      let step := recur tt (b.make_move mv) (-beta) (-alpha)
      let score := -step.1.score
      let b3 := step.2.2.undo_move
      let best1 := if best.score < score then SearchResult.mk (some mv) score else best
      let alpha1 := if alpha < score then score else alpha
      if beta ≤ alpha1 then ⟨none, best1, alpha1, step.2.1, b3⟩
      else searchLoop recur rest step.2.1 b3 alpha1 beta best1

/-- `Searcher::search_move`, threading the table and the `&mut Board`. -/
def search_move (evaluate : Board → ℚ) (gen : Board → List ChessMove) :
    Nat → TranspositionTable → Board → ℚ → ℚ →
      SearchResult × TranspositionTable × Board
  | 0, tt, b, alpha, beta =>
    match searchPreGate tt b 0 alpha beta with
    | some r => (r, tt, b)
    | none => (⟨none, evaluate b⟩, tt, b)
  | d + 1, tt, b, alpha, beta =>
    match searchPreGate tt b (d + 1) alpha beta with
    | some r => (r, tt, b)
    | none =>
      let zobrist := b.game_state.zobrist_key
      let out := searchLoop
        (fun tt' b' a' b2' => search_move evaluate gen d tt' b' a' b2')
        (gen b) tt b alpha beta ⟨none, MIN_POSITION_SCORE⟩
      match out.early with
      | some r => (r, out.tt, out.board)
      | none =>
        let flag :=
          if out.best.score ≤ alpha then Bound.UpperBound
          else if beta ≤ out.best.score then Bound.LowerBound
          else Bound.Exact
        (out.best,
          out.tt.store zobrist
            ⟨zobrist, d + 1, out.best.score, flag, out.best.best_move⟩,
          out.board)

/-- `Searcher::search`: run `search_move` on a clone of the caller's board
with the full `(MIN, MAX)` window and keep only the best move and the
mutated table. -/
def search (evaluate : Board → ℚ) (gen : Board → List ChessMove)
    (tt : TranspositionTable) (b : Board) (depth : Nat) :
    Option ChessMove × TranspositionTable :=
  let board_clone := b
  let result := search_move evaluate gen depth tt board_clone
    MIN_POSITION_SCORE MAX_POSITION_SCORE
  (result.1.best_move, result.2.1)

/-- A fresh one-slot transposition table (`TranspositionTable::new(0)`). -/
def emptyTT : TranspositionTable := TranspositionTable.new 0

/-- A quiet move flagged as delivering checkmate. -/
def mateMove : ChessMove :=
  ⟨PieceKind.Pawn, ⟨0, by omega⟩, ⟨8, by omega⟩, none, true, true,
    ChessMoveFlags.QUIET⟩

/-- A history entry recording `mateMove` (previous zobrist key 1, so the
current position key 0 counts no repetition). -/
def mateRecorded : RecordedMove :=
  ⟨mateMove, { GameState.new with zobrist_key := 1 }, none⟩

/-- A board where Black is to move and the newest history entry's move is
flagged checkmate; a white pawn rules out the insufficient-material draw
and the clocks rule out the others. -/
def mateBoard : Board :=
  { sides := fun s => match s with | Side.White => 2 ^ 8 | Side.Black => 0
    pieces := fun s p =>
      match s, p with
      | Side.White, PieceKind.Pawn => 2 ^ 8
      | _, _ => 0
    piece_list := fun sq => if sq.val = 8 then some PieceKind.Pawn else none
    game_state := { GameState.new with active_side := Side.Black }
    game_history := [mateRecorded]
    zobrist_keys := zeroKeys }

/-- C3 counterexample: Black is to move (Black was just mated), every early
gate before the mate branch passes, yet `search_move` returns
`MAX_POSITION_SCORE` (+100000) — a White-point-of-view score — where the
claim requires `MIN_POSITION_SCORE` for the side to move regardless of
color. -/
theorem search_move_mate_counterexample :
    mateBoard.get_active_side = Side.Black ∧
      mateBoard.game_history = [mateRecorded] ∧
      mateRecorded.mv.is_checkmate = true ∧
      (search_move (fun _ => 0) (fun _ => []) 3 emptyTT mateBoard
          MIN_POSITION_SCORE MAX_POSITION_SCORE).1 =
        ⟨none, MAX_POSITION_SCORE⟩ ∧
      MAX_POSITION_SCORE ≠ MIN_POSITION_SCORE :=
  ⟨rfl, rfl, rfl, by decide, by decide⟩

/-- C3 (amended): whenever `search_move` reaches the mate branch — the
transposition probe and the three draw checks pass, and the newest history
entry's move is flagged checkmate — it returns `best_move = None` and an
extremal score by the White-point-of-view convention of the source: White
to move (White just mated) gets `MIN_POSITION_SCORE`, Black to move gets
`MAX_POSITION_SCORE` — not `MIN_POSITION_SCORE` for both sides. -/
theorem search_move_mate_gate (evaluate : Board → ℚ) (gen : Board → List ChessMove)
    (depth : Nat) (tt : TranspositionTable) (b : Board) (alpha beta : ℚ)
    (hprobe : ttProbe tt b.game_state.zobrist_key depth alpha beta = none)
    (hdraw : (b.draw_by_fifty_move_rule || b.draw_by_threefold_repetition ||
      b.draw_by_insufficient_material) = false)
    (last : RecordedMove) (rest : List RecordedMove)
    (hhist : b.game_history = last :: rest)
    (hcm : last.mv.is_checkmate = true) :
    search_move evaluate gen depth tt b alpha beta =
      ((match b.game_state.active_side with
        | Side.White => ⟨none, MIN_POSITION_SCORE⟩
        | Side.Black => ⟨none, MAX_POSITION_SCORE⟩), tt, b) := by
  have hgate : searchPreGate tt b depth alpha beta =
      some (match b.game_state.active_side with
            | Side.White => ⟨none, MIN_POSITION_SCORE⟩
            | Side.Black => ⟨none, MAX_POSITION_SCORE⟩) := by
    unfold searchPreGate mateGate
    rw [hprobe, hdraw, hhist]
    simp [hcm, Board.get_active_side]
  cases depth with
  | zero => simp [search_move, hgate]
  | succ d => simp [search_move, hgate]

/-- Witness for C3 (amended): the mate gate on `mateBoard` (Black to move)
returns `MAX_POSITION_SCORE` with no best move, leaving table and board
untouched. -/
theorem search_move_mate_gate_witness :
    ttProbe emptyTT mateBoard.game_state.zobrist_key 3
        MIN_POSITION_SCORE MAX_POSITION_SCORE = none ∧
      (mateBoard.draw_by_fifty_move_rule ||
        mateBoard.draw_by_threefold_repetition ||
        mateBoard.draw_by_insufficient_material) = false ∧
      mateBoard.game_history = mateRecorded :: [] ∧
      mateRecorded.mv.is_checkmate = true ∧
      search_move (fun _ => 0) (fun _ => []) 3 emptyTT mateBoard
          MIN_POSITION_SCORE MAX_POSITION_SCORE =
        ((match mateBoard.game_state.active_side with
          | Side.White => ⟨none, MIN_POSITION_SCORE⟩
          | Side.Black => ⟨none, MAX_POSITION_SCORE⟩), emptyTT, mateBoard) :=
  ⟨by decide, by decide, rfl, rfl,
    search_move_mate_gate (fun _ => 0) (fun _ => []) 3 emptyTT mateBoard
      MIN_POSITION_SCORE MAX_POSITION_SCORE (by decide) (by decide)
      mateRecorded [] rfl rfl⟩

lemma searchLoop_preserves_board
    (recur : TranspositionTable → Board → ℚ → ℚ →
      SearchResult × TranspositionTable × Board)
    (hrec : ∀ tt' b' a' bb', (recur tt' b' a' bb').2.2 = b') (b : Board) :
    ∀ (moves : List ChessMove), (∀ mv ∈ moves, MoveOk b mv) →
      ∀ (tt : TranspositionTable) (alpha beta : ℚ) (best : SearchResult),
        (searchLoop recur moves tt b alpha beta best).board = b := by
  intro moves
  induction moves with
  | nil => intro _ tt alpha beta best; rfl
  | cons mv rest ih =>
    intro hmv tt alpha beta best
    have hb3 : (recur tt (b.make_move mv) (-beta) (-alpha)).2.2.undo_move = b := by
      rw [hrec]
      exact undo_make_of_moveOk b mv (hmv mv (List.mem_cons_self mv rest))
    simp only [searchLoop]
    by_cases hcm : mv.is_checkmate = true
    · simp [hcm]
    · have hcm' : mv.is_checkmate = false := by
        cases h : mv.is_checkmate
        · rfl
        · exact absurd h hcm
      simp only [hcm', Bool.false_eq_true, if_false, ite_false]
      rw [hb3]
      split
      · split
        · rfl
        · exact ih (fun m hm => hmv m (List.mem_cons_of_mem mv hm)) _ _ _ _
      · split
        · rfl
        · exact ih (fun m hm => hmv m (List.mem_cons_of_mem mv hm)) _ _ _ _

/-- C9: the search never mutates the caller's board.  `Searcher::search`
runs `search_move` on a clone of the caller's board, and `search_move`
itself hands every board it receives back unchanged (each loop iteration's
`make_move` is undone by `undo_move`), provided the move generator produces
structurally sound moves; so every field of the caller's board is unchanged
when `search` returns, and only the transposition table is mutated. -/
theorem search_move_preserves_board (evaluate : Board → ℚ)
    (gen : Board → List ChessMove)
    (hgen : ∀ b' : Board, ∀ mv ∈ gen b', MoveOk b' mv) :
    ∀ (depth : Nat) (tt : TranspositionTable) (b : Board) (alpha beta : ℚ),
      (search_move evaluate gen depth tt b alpha beta).2.2 = b := by
  intro depth
  induction depth with
  | zero =>
    intro tt b alpha beta
    simp only [search_move]
    split <;> rfl
  | succ d ih =>
    intro tt b alpha beta
    simp only [search_move]
    split
    · rfl
    · have hout : (searchLoop
          (fun tt' b' a' b2' => search_move evaluate gen d tt' b' a' b2')
          (gen b) tt b alpha beta ⟨none, MIN_POSITION_SCORE⟩).board = b :=
        searchLoop_preserves_board _ (fun tt' b' a' bb' => ih tt' b' a' bb') b
          (gen b) (hgen b) tt alpha beta _
      split
      · exact hout
      · exact hout

/-- Witness for C9: with an (everywhere-sound) empty move generator,
`search_move` at depth 2 hands the knight board back bit-exactly. -/
theorem search_move_preserves_board_witness :
    (search_move (fun _ => (0 : ℚ)) (fun _ => ([] : List ChessMove)) 2 emptyTT
        knightBoard 0 1).2.2 = knightBoard :=
  search_move_preserves_board (fun _ => 0) (fun _ => [])
    (fun _ mv h => absurd h (List.not_mem_nil mv)) 2 emptyTT knightBoard 0 1

/-! ### FEN parsing (`fen.rs` and `Board::from_fen`)

Strings are embedded as character lists.  The `format!` payloads of the
error values carry no behaviour; each message is embedded as its constant
prefix text. -/

/-- `FenError` of `fen.rs`. -/
inductive FenError where
  | IncorrectLengthError : FenError
  | PieceSquarePartError : String → FenError
  | PlaySidePartError : String → FenError
  | CastlingRightsPartError : String → FenError
  | EnPassantPartError : String → FenError
  | HalfMovePartError : String → FenError
  | FullMovePartError : String → FenError
deriving DecidableEq, Repr

/-- Rust `str::split(' ')` on a character list (empty pieces are kept, as in
Rust). -/
def splitOnSpace : List Char → List (List Char)
  | [] => [[]]
  | c :: rest =>
    if c = ' ' then [] :: splitOnSpace rest
    else
      match splitOnSpace rest with
      | h :: t => (c :: h) :: t
      | [] => [[c]]

/-- `FenParser::split_fen_string`.  (Before splitting, the source rewrites
its `EM_DASH` constant to `'-'`; in the repository's file that constant is a
multi-character mojibake literal — not a single `char` — so the rewrite is
dropped here; no claim involves that character.) -/
def split_fen_string (fen : List Char) : Except FenError (List (List Char)) :=
  let parts := splitOnSpace fen
  let parts := if parts.length = 4 then parts ++ [['0'], ['1']] else parts
  if parts.length = 6 then Except.ok parts
  else Except.error FenError.IncorrectLengthError

/-- `Square::from_str` of `definitions.rs` (ASCII-uppercase the two
characters, accept `A1`..`H8`). -/
def squareFromChars (part : List Char) : Option Nat :=
  match part.map Char.toUpper with
  | [f, r] =>
    if 'A' ≤ f ∧ f ≤ 'H' ∧ '1' ≤ r ∧ r ≤ '8' then
      some ((r.toNat - '1'.toNat) * 8 + (f.toNat - 'A'.toNat))
    else none
  | _ => none

/-- `MAX_GAME_MOVES` of `definitions.rs`. -/
def MAX_GAME_MOVES : Nat := 1024

namespace Fen

/-- The character loop of `FenParser::pieces`, threading the partially
mutated board out on error exactly as the `&mut Board` does.  In the source
an over-long rank indexes `SQUARE_BITBOARDS` out of range and a ninth `'/'`
underflows the `u8` rank — both abort (panic); they are embedded as an
unbounded `Nat` bit position and saturating subtraction, and no claim
depends on those inputs. -/
def piecesLoop : Board → Nat → Nat → List Char → Board × Option FenError
  | b, _, _, [] => (b, none)
  | b, rank, file, c :: rest =>
    let square := rank * 8 + file
    let put (s : Side) (p : PieceKind) : Board :=
      { b with
        pieces := Function.update b.pieces s
          (Function.update (b.pieces s) p (b.pieces s p ||| (1 <<< square))) }
    match c with
    | 'k' => piecesLoop (put Side.Black PieceKind.King) rank (file + 1) rest
    | 'q' => piecesLoop (put Side.Black PieceKind.Queen) rank (file + 1) rest
    | 'r' => piecesLoop (put Side.Black PieceKind.Rook) rank (file + 1) rest
    | 'b' => piecesLoop (put Side.Black PieceKind.Bishop) rank (file + 1) rest
    | 'n' => piecesLoop (put Side.Black PieceKind.Knight) rank (file + 1) rest
    | 'p' => piecesLoop (put Side.Black PieceKind.Pawn) rank (file + 1) rest
    | 'K' => piecesLoop (put Side.White PieceKind.King) rank (file + 1) rest
    | 'Q' => piecesLoop (put Side.White PieceKind.Queen) rank (file + 1) rest
    | 'R' => piecesLoop (put Side.White PieceKind.Rook) rank (file + 1) rest
    | 'B' => piecesLoop (put Side.White PieceKind.Bishop) rank (file + 1) rest
    | 'N' => piecesLoop (put Side.White PieceKind.Knight) rank (file + 1) rest
    | 'P' => piecesLoop (put Side.White PieceKind.Pawn) rank (file + 1) rest
    | '/' =>
      if file ≠ 8 then
        (b, some (FenError.PieceSquarePartError "Invalid file count"))
      else piecesLoop b (rank - 1) 0 rest
    | _ =>
      if '1' ≤ c ∧ c ≤ '8' then
        piecesLoop b rank (file + (c.toNat - '0'.toNat)) rest
      else (b, some (FenError.PieceSquarePartError
        "Invalid character in piece square part"))

/-- `FenParser::pieces`. -/
def pieces (b : Board) (part : List Char) : Board × Option FenError :=
  piecesLoop b 7 0 part

/-- `FenParser::color`. -/
def color (b : Board) (part : List Char) : Board × Option FenError :=
  match part with
  | [c] =>
    if c = 'w' then
      ({ b with game_state := { b.game_state with active_side := Side.White } }, none)
    else if c = 'b' then
      ({ b with game_state := { b.game_state with active_side := Side.Black } }, none)
    else (b, some (FenError.PlaySidePartError "Invalid character in play side part"))
  | _ => (b, some (FenError.PlaySidePartError "Invalid character in play side part"))

/-- The character loop of `FenParser::castling`. -/
def castlingLoop : Board → List Char → Board × Option FenError
  | b, [] => (b, none)
  | b, c :: rest =>
    let setBit (m : Nat) : Board :=
      { b with game_state := { b.game_state with
          castling := b.game_state.castling ||| m } }
    match c with
    | 'K' => castlingLoop (setBit 1) rest
    | 'Q' => castlingLoop (setBit 2) rest
    | 'k' => castlingLoop (setBit 4) rest
    | 'q' => castlingLoop (setBit 8) rest
    | '-' => castlingLoop b rest
    | _ => (b, some (FenError.CastlingRightsPartError
        "Invalid character in castling rights part"))

/-- `FenParser::castling`. -/
def castling (b : Board) (part : List Char) : Board × Option FenError :=
  if 1 ≤ part.length ∧ part.length ≤ 4 then castlingLoop b part
  else (b, some (FenError.CastlingRightsPartError
    "Invalid castling rights part length"))

/-- `FenParser::en_passant`. -/
def en_passant (b : Board) (part : List Char) : Board × Option FenError :=
  match part with
  | ['-'] => (b, none)
  | _ =>
    if part.length = 2 then
      match squareFromChars part with
      | some sq =>
        if (16 ≤ sq ∧ sq ≤ 23) ∨ (40 ≤ sq ∧ sq ≤ 47) then
          ({ b with game_state := { b.game_state with en_passant := some sq } }, none)
        else (b, some (FenError.EnPassantPartError
          "Invalid square in en passant part"))
      | none => (b, some (FenError.EnPassantPartError
          "Invalid square in en passant part"))
    else (b, some (FenError.EnPassantPartError
      "Invalid en passant part length or content"))

/-- The digit-string value used by `str::parse::<uN>`: all characters must
be decimal digits and the value must fit the integer type. -/
def digitsVal : Nat → List Char → Option Nat
  | acc, [] => some acc
  | acc, c :: rest =>
    if '0' ≤ c ∧ c ≤ '9' then digitsVal (acc * 10 + (c.toNat - '0'.toNat)) rest
    else none

/-- `part.parse::<uN>()` with maximum value `maxVal` (255 for `u8`, 65535
for `u16`). -/
def parseUInt (maxVal : Nat) (part : List Char) : Option Nat :=
  match part with
  | [] => none
  | _ =>
    match digitsVal 0 part with
    | some v => if v ≤ maxVal then some v else none
    | none => none

/-- `FenParser::half_move_clock`. -/
def half_move_clock (b : Board) (part : List Char) : Board × Option FenError :=
  if 1 ≤ part.length ∧ part.length ≤ 3 then
    match parseUInt 255 part with
    | some x =>
      if x ≤ Board.HALF_MOVE_MAX then
        ({ b with game_state := { b.game_state with half_move_clock := x } }, none)
      else (b, some (FenError.HalfMovePartError "Invalid half-move clock part"))
    | none => (b, some (FenError.HalfMovePartError "Invalid half-move clock part"))
  else (b, some (FenError.HalfMovePartError "Invalid half-move clock part"))

/-- `FenParser::full_move_number`. -/
def full_move_number (b : Board) (part : List Char) : Board × Option FenError :=
  if 1 ≤ part.length ∧ part.length ≤ 4 then
    match parseUInt 65535 part with
    | some x =>
      if x ≤ MAX_GAME_MOVES then
        ({ b with game_state := { b.game_state with full_move_number := x } }, none)
      else (b, some (FenError.FullMovePartError "Invalid full-move number part"))
    | none => (b, some (FenError.FullMovePartError "Invalid full-move number part"))
  else (b, some (FenError.FullMovePartError "Invalid full-move number part"))

end Fen

/-- `FenParser::create_part_parsers`, as the ordered list the parse loop
zips with the six FEN parts. -/
def create_part_fns : List (Board → List Char → Board × Option FenError) :=
  [Fen.pieces, Fen.color, Fen.castling, Fen.en_passant,
   Fen.half_move_clock, Fen.full_move_number]

/-- The `for (part, parser) in fen_parts.iter().zip(...)` loop of
`FenParser::parse`: run each parser in turn on the threaded board, stopping
at the first error (the board keeps the mutations made so far). -/
def runFenParts : Board → List (Board → List Char → Board × Option FenError) →
    List (List Char) → Board × Option FenError
  | b, [], _ => (b, none)
  | b, _, [] => (b, none)
  | b, p :: ps, s :: ss =>
    match p b s with
    | (b1, none) => runFenParts b1 ps ss
    | (b1, some e) => (b1, some e)

/-- The ascending set-bit enumeration (`trailing_zeros` + clear-lowest)
shared by `init_piece_list` and `init_zobrist_key`. -/
def squaresOf (bb : Nat) : List SquareIx :=
  (List.finRange 64).filter (fun sq => bb.testBit sq.val)

/-- The `Piece` enum order of `definitions.rs`. -/
def pieceOrder : List PieceKind :=
  [PieceKind.King, PieceKind.Queen, PieceKind.Rook,
   PieceKind.Bishop, PieceKind.Knight, PieceKind.Pawn]

/-- `Board::init_piece_list`. -/
def Board.init_piece_list (b : Board) : Board :=
  let pl := pieceOrder.foldl (fun pl p =>
    let plW := (squaresOf (b.pieces Side.White p)).foldl
      (fun pl sq => Function.update pl sq (some p)) pl
    (squaresOf (b.pieces Side.Black p)).foldl
      (fun pl sq => Function.update pl sq (some p)) plW)
    (fun _ => none)
  { b with piece_list := pl }

/-- `Board::init`: recompute the side-occupancy bitboards, the piece list
and the zobrist key from the piece bitboards. -/
def Board.init (b : Board) : Board :=
  let bitboard_white := pieceOrder.foldl (fun acc p => acc ||| b.pieces Side.White p) 0
  let bitboard_black := pieceOrder.foldl (fun acc p => acc ||| b.pieces Side.Black p) 0
  let b1 := { b with sides := fun s =>
      match s with
      | Side.White => bitboard_white
      | Side.Black => bitboard_black }
  b1.init_piece_list.init_zobrist_key

/-- `FEN_STARTING_POSITION` of `definitions.rs`. -/
def FEN_STARTING_POSITION : List Char :=
  "rnbqkbnr/pppppppp/8/8/8/8/PPPPPPPP/RNBQKBNR w KQkq - 0 1".toList

/-- `Board::from_fen`: reset, parse the six parts in place, and only on full
success recompute the derived fields with `init`.  The board component of
the result is the state the `&mut self` holds when the method returns. -/
def Board.from_fen (b : Board) (fen : Option (List Char)) :
    Board × Option FenError :=
  let fen_string := fen.getD FEN_STARTING_POSITION
  let b0 := b.reset
  match split_fen_string fen_string with
  | Except.error e => (b0, some e)
  | Except.ok parts =>
    match runFenParts b0 create_part_fns parts with
    | (b1, some e) => (b1, some e)
    | (b1, none) => (b1.init, none)

/-- The fields a FEN part parser never touches: side occupancy bitboards,
piece list, history, the zobrist key value, and the key tables. -/
def fenFrame (b r : Board) : Prop :=
  r.sides = b.sides ∧ r.piece_list = b.piece_list ∧
  r.game_history = b.game_history ∧
  r.game_state.zobrist_key = b.game_state.zobrist_key ∧
  r.zobrist_keys = b.zobrist_keys

lemma fenFrame_rfl (b : Board) : fenFrame b b := ⟨rfl, rfl, rfl, rfl, rfl⟩

lemma fenFrame_trans {a b c : Board} (h1 : fenFrame a b) (h2 : fenFrame b c) :
    fenFrame a c :=
  ⟨h2.1.trans h1.1, h2.2.1.trans h1.2.1, h2.2.2.1.trans h1.2.2.1,
   h2.2.2.2.1.trans h1.2.2.2.1, h2.2.2.2.2.trans h1.2.2.2.2⟩

lemma piecesLoop_frame :
    ∀ (part : List Char) (b : Board) (rank file : Nat),
      fenFrame b (Fen.piecesLoop b rank file part).1 := by
  intro part
  induction part with
  | nil => intro b rank file; exact fenFrame_rfl b
  | cons c rest ih =>
    intro b rank file
    simp only [Fen.piecesLoop]
    split
    all_goals try split
    all_goals first
      | exact fenFrame_trans (fenFrame_rfl _) (ih _ _ _)
      | exact fenFrame_trans ⟨rfl, rfl, rfl, rfl, rfl⟩ (ih _ _ _)
      | exact fenFrame_rfl _

lemma castlingLoop_frame :
    ∀ (part : List Char) (b : Board), fenFrame b (Fen.castlingLoop b part).1 := by
  intro part
  induction part with
  | nil => intro b; exact fenFrame_rfl b
  | cons c rest ih =>
    intro b
    simp only [Fen.castlingLoop]
    split
    all_goals first
      | exact fenFrame_trans ⟨rfl, rfl, rfl, rfl, rfl⟩ (ih _)
      | exact fenFrame_rfl _

lemma color_frame (b : Board) (part : List Char) :
    fenFrame b (Fen.color b part).1 := by
  unfold Fen.color
  split
  all_goals try split
  all_goals try split
  all_goals exact ⟨rfl, rfl, rfl, rfl, rfl⟩

lemma castling_frame (b : Board) (part : List Char) :
    fenFrame b (Fen.castling b part).1 := by
  unfold Fen.castling
  split
  · exact castlingLoop_frame part b
  · exact fenFrame_rfl b

lemma en_passant_frame (b : Board) (part : List Char) :
    fenFrame b (Fen.en_passant b part).1 := by
  unfold Fen.en_passant
  split
  all_goals try split
  all_goals try split
  all_goals try split
  all_goals exact ⟨rfl, rfl, rfl, rfl, rfl⟩

lemma half_move_clock_frame (b : Board) (part : List Char) :
    fenFrame b (Fen.half_move_clock b part).1 := by
  unfold Fen.half_move_clock
  split
  all_goals try split
  all_goals try split
  all_goals exact ⟨rfl, rfl, rfl, rfl, rfl⟩

lemma full_move_number_frame (b : Board) (part : List Char) :
    fenFrame b (Fen.full_move_number b part).1 := by
  unfold Fen.full_move_number
  split
  all_goals try split
  all_goals try split
  all_goals exact ⟨rfl, rfl, rfl, rfl, rfl⟩

lemma runFenParts_frame :
    ∀ (ps : List (Board → List Char → Board × Option FenError)),
      (∀ p ∈ ps, ∀ (b : Board) (part : List Char), fenFrame b (p b part).1) →
      ∀ (ss : List (List Char)) (b : Board),
        fenFrame b (runFenParts b ps ss).1 := by
  intro ps
  induction ps with
  | nil => intro _ ss b; cases ss <;> exact fenFrame_rfl b
  | cons p ps ih =>
    intro hps ss b
    cases ss with
    | nil => exact fenFrame_rfl b
    | cons s ss =>
      simp only [runFenParts]
      rcases hpb : p b s with ⟨b1, oe⟩
      have hfr : fenFrame b b1 := by
        have h := hps p (List.mem_cons_self p ps) b s
        rw [hpb] at h
        exact h
      cases oe with
      | none =>
        simp only [hpb]
        exact fenFrame_trans hfr
          (ih (fun q hq => hps q (List.mem_cons_of_mem p hq)) ss b1)
      | some e =>
        simp only [hpb]
        exact hfr

lemma create_part_fns_frame :
    ∀ p ∈ create_part_fns, ∀ (b : Board) (part : List Char),
      fenFrame b (p b part).1 := by
  intro p hp
  simp only [create_part_fns, List.mem_cons, List.not_mem_nil, or_false] at hp
  rcases hp with rfl | rfl | rfl | rfl | rfl | rfl
  · exact fun b part => piecesLoop_frame part b 7 0
  · exact color_frame
  · exact castling_frame
  · exact en_passant_frame
  · exact half_move_clock_frame
  · exact full_move_number_frame

/-- C6 (amended): when `from_fen` returns an error, the derived state stays
as `reset` left it — side occupancy bitboards zero, piece list all empty,
history empty, zobrist key 0 — because `init` only runs on success; but the
piece bitboards and the already-parsed `game_state` fields keep whatever the
parts parsed before the failure wrote (parsing is in place, not into a
scratch board). -/
theorem from_fen_error_state (b : Board) (fen : Option (List Char)) (e : FenError)
    (herr : (b.from_fen fen).2 = some e) :
    (b.from_fen fen).1.sides = (fun _ => 0) ∧
    (b.from_fen fen).1.piece_list = (fun _ => none) ∧
    (b.from_fen fen).1.game_history = [] ∧
    (b.from_fen fen).1.game_state.zobrist_key = 0 := by
  unfold Board.from_fen at herr ⊢
  cases hsf : split_fen_string (fen.getD FEN_STARTING_POSITION) with
  | error e0 =>
    simp only [hsf]
    exact ⟨rfl, rfl, rfl, rfl⟩
  | ok parts =>
    simp only [hsf] at herr ⊢
    rcases hrp : runFenParts b.reset create_part_fns parts with ⟨b1, oe⟩
    have hfr : fenFrame b.reset b1 := by
      have h := runFenParts_frame create_part_fns create_part_fns_frame parts b.reset
      rw [hrp] at h
      exact h
    cases oe with
    | none =>
      rw [hrp] at herr
      exact absurd herr (by simp)
    | some e1 =>
      simp only [hrp]
      exact ⟨hfr.1, hfr.2.1, hfr.2.2.1, hfr.2.2.2.1⟩

/-- A FEN string whose piece part is valid (a lone white king on A8) but
whose side-to-move part `x` is rejected. -/
def badFen : List Char := "K7/8/8/8/8/8/8/8 x KQkq - 0 1".toList

/-- C6 counterexample: `from_fen` on `badFen` fails at the play-side part,
yet the white king bitboard keeps the bit for A8 (square 56) written by the
already-run piece part — the claimed all-zero piece bitboards do not hold on
error. -/
theorem from_fen_error_partial_counterexample :
    (emptyBoard.from_fen (some badFen)).2 =
        some (FenError.PlaySidePartError "Invalid character in play side part") ∧
      (emptyBoard.from_fen (some badFen)).1.pieces Side.White PieceKind.King =
        2 ^ 56 ∧
      (2 : Nat) ^ 56 ≠ 0 :=
  ⟨by decide, by decide, by decide⟩

/-! ### Castling generation (`MoveGenerator::generate_king_moves`)

`KING_BASE_ATTACKS` and the attack tables behind
`MoveGenerator::is_square_attacked` live in `move_generator/magics.rs`,
which is not among the repository's files; the king attack table and the
attacked-square test are therefore abstracted as parameters `kingAtt` and
`attacked` — the castling logic under scrutiny never looks inside them. -/

/-- The "Normal King moves" loop of `MoveGenerator::generate_king_moves`
(one move pushed per destination square, in ascending square order). -/
def normalKingMoves (kingAtt : SquareIx → Nat) (fromSq : SquareIx)
    (own_pieces enemy_pieces : Nat) : List ChessMove :=
  (List.finRange 64).filterMap (fun i =>
    if kingAtt fromSq &&& squareBB i ≠ 0 then
      if own_pieces &&& squareBB i = 0 then
        if enemy_pieces &&& squareBB i = 0 then
          some (ChessMove.quiet PieceKind.King fromSq i)
        else some (ChessMove.capture PieceKind.King fromSq i)
      else none
    else none)

/-- The king-side castling push of `generate_king_moves`:
`kingside_squares = [E1, F1, G1, H1]` (White) or `[E8, F8, G8, H8]`
(Black), opponent attack checks on the first three. -/
def kingsideCastleMoves (attacked : Board → SquareIx → Side → Bool)
    (b : Board) : Side → List ChessMove
  | Side.White =>
    if b.game_state.castling &&& 1 ≠ 0 then
      if b.piece_list ⟨4, by omega⟩ = some PieceKind.King ∧
          b.piece_list ⟨5, by omega⟩ = none ∧
          b.piece_list ⟨6, by omega⟩ = none ∧
          b.piece_list ⟨7, by omega⟩ = some PieceKind.Rook then
        if attacked b ⟨4, by omega⟩ Side.Black = false ∧
            attacked b ⟨5, by omega⟩ Side.Black = false ∧
            attacked b ⟨6, by omega⟩ Side.Black = false then
          [ChessMove.castle ⟨4, by omega⟩ ⟨6, by omega⟩ true]
        else []
      else []
    else []
  | Side.Black =>
    if b.game_state.castling &&& 4 ≠ 0 then
      if b.piece_list ⟨60, by omega⟩ = some PieceKind.King ∧
          b.piece_list ⟨61, by omega⟩ = none ∧
          b.piece_list ⟨62, by omega⟩ = none ∧
          b.piece_list ⟨63, by omega⟩ = some PieceKind.Rook then
        if attacked b ⟨60, by omega⟩ Side.White = false ∧
            attacked b ⟨61, by omega⟩ Side.White = false ∧
            attacked b ⟨62, by omega⟩ Side.White = false then
          [ChessMove.castle ⟨60, by omega⟩ ⟨62, by omega⟩ true]
        else []
      else []
    else []

/-- The queen-side castling push of `generate_king_moves`:
`queenside_squares = [E1, D1, C1, B1, A1]` (White) or
`[E8, D8, C8, B8, A8]` (Black); the B-file square must be empty but is
never attack-checked (only squares 0, 1, 2 of the list are). -/
def queensideCastleMoves (attacked : Board → SquareIx → Side → Bool)
    (b : Board) : Side → List ChessMove
  | Side.White =>
    if b.game_state.castling &&& 2 ≠ 0 then
      if b.piece_list ⟨4, by omega⟩ = some PieceKind.King ∧
          b.piece_list ⟨3, by omega⟩ = none ∧
          b.piece_list ⟨2, by omega⟩ = none ∧
          b.piece_list ⟨1, by omega⟩ = none ∧
          b.piece_list ⟨0, by omega⟩ = some PieceKind.Rook then
        if attacked b ⟨4, by omega⟩ Side.Black = false ∧
            attacked b ⟨3, by omega⟩ Side.Black = false ∧
            attacked b ⟨2, by omega⟩ Side.Black = false then
          [ChessMove.castle ⟨4, by omega⟩ ⟨2, by omega⟩ false]
        else []
      else []
    else []
  | Side.Black =>
    if b.game_state.castling &&& 8 ≠ 0 then
      if b.piece_list ⟨60, by omega⟩ = some PieceKind.King ∧
          b.piece_list ⟨59, by omega⟩ = none ∧
          b.piece_list ⟨58, by omega⟩ = none ∧
          b.piece_list ⟨57, by omega⟩ = none ∧
          b.piece_list ⟨56, by omega⟩ = some PieceKind.Rook then
        if attacked b ⟨60, by omega⟩ Side.White = false ∧
            attacked b ⟨59, by omega⟩ Side.White = false ∧
            attacked b ⟨58, by omega⟩ Side.White = false then
          [ChessMove.castle ⟨60, by omega⟩ ⟨58, by omega⟩ false]
        else []
      else []
    else []

/-- `MoveGenerator::generate_king_moves`: the normal moves followed by the
king-side and queen-side castling pushes. -/
def generate_king_moves (kingAtt : SquareIx → Nat)
    (attacked : Board → SquareIx → Side → Bool) (b : Board) (fromSq : SquareIx)
    (side : Side) (own_pieces enemy_pieces : Nat) : List ChessMove :=
  normalKingMoves kingAtt fromSq own_pieces enemy_pieces ++
    kingsideCastleMoves attacked b side ++ queensideCastleMoves attacked b side

/-- The castling move `generate_king_moves` can emit for a side and wing. -/
def castleMoveOf : Side → Bool → ChessMove
  | Side.White, true => ChessMove.castle ⟨4, by omega⟩ ⟨6, by omega⟩ true
  | Side.White, false => ChessMove.castle ⟨4, by omega⟩ ⟨2, by omega⟩ false
  | Side.Black, true => ChessMove.castle ⟨60, by omega⟩ ⟨62, by omega⟩ true
  | Side.Black, false => ChessMove.castle ⟨60, by omega⟩ ⟨58, by omega⟩ false

/-- The amended castling condition: the wing's right flag is set, the king
stands on its home square and the rook on its corner, every square between
them is empty, and the king's start, passing and destination squares are
unattacked by the opponent; the queen-side B-file square must be empty but
is not attack-checked. -/
def CastleCond (attacked : Board → SquareIx → Side → Bool) (b : Board) :
    Side → Bool → Prop
  | Side.White, true =>
    b.game_state.castling &&& 1 ≠ 0 ∧
    (b.piece_list ⟨4, by omega⟩ = some PieceKind.King ∧
      b.piece_list ⟨5, by omega⟩ = none ∧
      b.piece_list ⟨6, by omega⟩ = none ∧
      b.piece_list ⟨7, by omega⟩ = some PieceKind.Rook) ∧
    (attacked b ⟨4, by omega⟩ Side.Black = false ∧
      attacked b ⟨5, by omega⟩ Side.Black = false ∧
      attacked b ⟨6, by omega⟩ Side.Black = false)
  | Side.White, false =>
    b.game_state.castling &&& 2 ≠ 0 ∧
    (b.piece_list ⟨4, by omega⟩ = some PieceKind.King ∧
      b.piece_list ⟨3, by omega⟩ = none ∧
      b.piece_list ⟨2, by omega⟩ = none ∧
      b.piece_list ⟨1, by omega⟩ = none ∧
      b.piece_list ⟨0, by omega⟩ = some PieceKind.Rook) ∧
    (attacked b ⟨4, by omega⟩ Side.Black = false ∧
      attacked b ⟨3, by omega⟩ Side.Black = false ∧
      attacked b ⟨2, by omega⟩ Side.Black = false)
  | Side.Black, true =>
    b.game_state.castling &&& 4 ≠ 0 ∧
    (b.piece_list ⟨60, by omega⟩ = some PieceKind.King ∧
      b.piece_list ⟨61, by omega⟩ = none ∧
      b.piece_list ⟨62, by omega⟩ = none ∧
      b.piece_list ⟨63, by omega⟩ = some PieceKind.Rook) ∧
    (attacked b ⟨60, by omega⟩ Side.White = false ∧
      attacked b ⟨61, by omega⟩ Side.White = false ∧
      attacked b ⟨62, by omega⟩ Side.White = false)
  | Side.Black, false =>
    b.game_state.castling &&& 8 ≠ 0 ∧
    (b.piece_list ⟨60, by omega⟩ = some PieceKind.King ∧
      b.piece_list ⟨59, by omega⟩ = none ∧
      b.piece_list ⟨58, by omega⟩ = none ∧
      b.piece_list ⟨57, by omega⟩ = none ∧
      b.piece_list ⟨56, by omega⟩ = some PieceKind.Rook) ∧
    (attacked b ⟨60, by omega⟩ Side.White = false ∧
      attacked b ⟨59, by omega⟩ Side.White = false ∧
      attacked b ⟨58, by omega⟩ Side.White = false)

lemma not_mem_normalKingMoves (kingAtt : SquareIx → Nat) (fromSq : SquareIx)
    (own_pieces enemy_pieces : Nat) (side : Side) (ks : Bool) :
    castleMoveOf side ks ∉ normalKingMoves kingAtt fromSq own_pieces enemy_pieces := by
  intro h
  simp only [normalKingMoves, List.mem_filterMap] at h
  obtain ⟨i, _, hi⟩ := h
  split at hi
  · split at hi
    · split at hi
      · cases side <;> cases ks <;>
          simp [ChessMove.quiet, castleMoveOf, ChessMove.castle,
            ChessMoveFlags.QUIET, ChessMoveFlags.KING_CASTLE,
            ChessMoveFlags.QUEEN_CASTLE] at hi
      · cases side <;> cases ks <;>
          simp [ChessMove.capture, castleMoveOf, ChessMove.castle,
            ChessMoveFlags.CAPTURE, ChessMoveFlags.KING_CASTLE,
            ChessMoveFlags.QUEEN_CASTLE] at hi
    · exact Option.noConfusion hi
  · exact Option.noConfusion hi

lemma mem_kingsideCastleMoves (attacked : Board → SquareIx → Side → Bool)
    (b : Board) (side : Side) (m : ChessMove) :
    m ∈ kingsideCastleMoves attacked b side ↔
      m = castleMoveOf side true ∧ CastleCond attacked b side true := by
  cases side <;>
    (simp only [kingsideCastleMoves, castleMoveOf, CastleCond]
     split
     all_goals try split
     all_goals try split
     all_goals simp_all)

lemma mem_queensideCastleMoves (attacked : Board → SquareIx → Side → Bool)
    (b : Board) (side : Side) (m : ChessMove) :
    m ∈ queensideCastleMoves attacked b side ↔
      m = castleMoveOf side false ∧ CastleCond attacked b side false := by
  cases side <;>
    (simp only [queensideCastleMoves, castleMoveOf, CastleCond]
     split
     all_goals try split
     all_goals try split
     all_goals simp_all)

/-- C7 (amended): for either side and either wing, `generate_king_moves`
emits the castling move if and only if the wing's right flag is set, the
king stands on its home square, the rook on its corner, every square
between them is empty, and the king's start, passing and destination
squares are not attacked by the opponent.  The queen-side B-file square
must be empty but is not attack-checked.  (The original claim omitted the
king- and rook-placement requirements from its "if and only if".) -/
theorem generate_castling_iff (kingAtt : SquareIx → Nat)
    (attacked : Board → SquareIx → Side → Bool) (b : Board) (fromSq : SquareIx)
    (side : Side) (own_pieces enemy_pieces : Nat) (king_side : Bool) :
    castleMoveOf side king_side ∈
        generate_king_moves kingAtt attacked b fromSq side own_pieces enemy_pieces ↔
      CastleCond attacked b side king_side := by
  unfold generate_king_moves
  constructor
  · intro h
    rcases List.mem_append.1 h with h | h
    · rcases List.mem_append.1 h with h | h
      · exact absurd h
          (not_mem_normalKingMoves kingAtt fromSq own_pieces enemy_pieces side king_side)
      · obtain ⟨heq, hc⟩ := (mem_kingsideCastleMoves attacked b side _).1 h
        cases king_side
        · exact absurd heq (by cases side <;> decide)
        · exact hc
    · obtain ⟨heq, hc⟩ := (mem_queensideCastleMoves attacked b side _).1 h
      cases king_side
      · exact hc
      · exact absurd heq (by cases side <;> decide)
  · intro hc
    cases king_side
    · exact List.mem_append.2 (Or.inr
        ((mem_queensideCastleMoves attacked b side _).2 ⟨rfl, hc⟩))
    · exact List.mem_append.2 (Or.inl (List.mem_append.2 (Or.inr
        ((mem_kingsideCastleMoves attacked b side _).2 ⟨rfl, hc⟩))))

/-- An empty board that still carries the white king-side castling right. -/
def castleRightsBoard : Board :=
  { emptyBoard with game_state := { GameState.new with castling := 1 } }

/-- C7 counterexample: the white king-side right is set, F1 and G1 are
empty, and no square is attacked — every condition of the original claim's
"if and only if" holds — yet no castling move is generated, because E1 holds
no king (and H1 no rook): the generator also requires the king and rook
placement the claim omitted. -/
theorem generate_castling_counterexample :
    castleRightsBoard.game_state.castling &&& 1 ≠ 0 ∧
      castleRightsBoard.piece_list ⟨5, by omega⟩ = none ∧
      castleRightsBoard.piece_list ⟨6, by omega⟩ = none ∧
      (∀ (sq : SquareIx) (s : Side),
        (fun (_ : Board) (_ : SquareIx) (_ : Side) => false)
          castleRightsBoard sq s = false) ∧
      ChessMove.castle ⟨4, by omega⟩ ⟨6, by omega⟩ true ∉
        generate_king_moves (fun _ => 0) (fun _ _ _ => false) castleRightsBoard
          ⟨4, by omega⟩ Side.White 0 0 :=
  ⟨by decide, by decide, by decide, fun _ _ => rfl, by decide⟩

/-- Witness for C6 (amended): on `badFen` the parse fails and the derived
fields are still in their reset state. -/
theorem from_fen_error_state_witness :
    (emptyBoard.from_fen (some badFen)).2 =
        some (FenError.PlaySidePartError "Invalid character in play side part") ∧
      ((emptyBoard.from_fen (some badFen)).1.sides = (fun _ => 0) ∧
        (emptyBoard.from_fen (some badFen)).1.piece_list = (fun _ => none) ∧
        (emptyBoard.from_fen (some badFen)).1.game_history = [] ∧
        (emptyBoard.from_fen (some badFen)).1.game_state.zobrist_key = 0) :=
  ⟨by decide,
    from_fen_error_state emptyBoard (some badFen)
      (FenError.PlaySidePartError "Invalid character in play side part") (by decide)⟩

end KingCrab
